import Mathlib

/-!
# Chain of responsibility for log messages

A shallow embedding of `ChainResponsibilityPattern/Source.cpp`.

* Handler objects live on a heap (a list of objects addressed by index); the
  inherited field `next` is a nullable reference (`Option Nat`), so chains,
  re-linked chains and cyclic graphs are all representable.
* `handle` is a virtual call: it looks up the dynamic class of the receiver
  and runs the override of that class.  Because a cyclic graph makes the C++
  recursion unbounded, the embedding carries a fuel argument and returns
  `none` when the fuel is exhausted.
* A C++ exception is the `Except.error` component of the outcome, carrying
  the `what()` text of the `std::runtime_error`.  `what()` returns a C string,
  so that text ends at the first NUL character of the constructor argument.
* The observable world is the character stream `cout`, the character stream
  `cerr` and the files reachable through `std::ofstream` in append mode.
* `calls` is ghost state: the receivers whose `handle` has been entered,
  together with the message they were entered with, in order.
-/

namespace ChainResponsibility

/-! ## Data model -/

/-- The enumeration `LogMessageType` (Source.cpp, lines 7-12). -/
inductive LogMessageType where
  | Warning
  | Error
  | FatalError
  | Unknown
  deriving DecidableEq, Repr

/-- The class `LogMessage` (Source.cpp, lines 14-29): two private fields set by the constructor. -/
structure LogMessage where
  msgType : LogMessageType
  msg : String
  deriving DecidableEq, Repr

/-- The accessor `LogMessage::type`. -/
def LogMessage.type (self : LogMessage) : LogMessageType := self.msgType

/-- The accessor `LogMessage::message`. -/
def LogMessage.message (self : LogMessage) : String := self.msg

/-- The four classes derived from `LogHandler`, without their fields. -/
inductive HandlerKind where
  | Fatal
  | Error
  | Warning
  | Unknown
  deriving DecidableEq, Repr

/-- The dynamic class of a handler object together with the field the class adds
(`ErrorHandler::filePath`).  The program creates objects of the four derived classes
only, never of the base class `LogHandler` itself. -/
inductive HandlerClass where
  | FatalErrorHandler
  | ErrorHandler (filePath : String)
  | WarningHandler
  | UnknownHandler
  deriving DecidableEq, Repr

/-- The kind of a dynamic class. -/
def HandlerClass.kind : HandlerClass → HandlerKind
  | .FatalErrorHandler => .Fatal
  | .ErrorHandler _ => .Error
  | .WarningHandler => .Warning
  | .UnknownHandler => .Unknown

/-- A handler object: its dynamic class and the inherited field `next`
(a `shared_ptr`, `none` when null). -/
structure HandlerObj where
  cls : HandlerClass
  next : Option Nat
  deriving DecidableEq, Repr

/-- Program state: the heap of handler objects and the observable world. -/
structure State where
  /-- Handler objects created by `make_shared`, addressed by index. -/
  heap : List HandlerObj
  /-- Characters written to `std::cout`. -/
  cout : String
  /-- Characters written to `std::cerr`. -/
  cerr : String
  /-- Whether `std::ofstream(path, std::ios::app)` ends up open. -/
  openable : String → Bool
  /-- Contents of the file at a path (empty when the file does not exist yet). -/
  files : String → String
  /-- Ghost: receivers whose `handle` has been entered, with the message, in order. -/
  calls : List (Nat × LogMessage)

/-- What a call leaves behind: the state, and either normal completion or the
`what()` text of the raised `std::runtime_error`. -/
abbrev Outcome := State × Except String Unit

/-! ## Handlers -/

/-- Method `LogHandler::setNext` (lines 36-38): `next = nextHandler` on the receiver. -/
def setNext (self : Nat) (nextHandler : Option Nat) (σ : State) : State :=
  match σ.heap[self]? with
  | some obj => { σ with heap := σ.heap.set self { obj with next := nextHandler } }
  | none => σ

/-- Allocation `std::make_shared<C>(...)`: a new object of class `cls` whose `next` is null;
returns the reference to it. -/
def makeShared (cls : HandlerClass) (σ : State) : Nat × State :=
  (σ.heap.length, { σ with heap := σ.heap ++ [{ cls := cls, next := none }] })

/-- The text that `std::runtime_error(s).what()` yields: `what()` returns a C string,
which ends at the first NUL character of `s`. -/
def what (s : String) : String :=
  ⟨s.data.takeWhile (fun c => decide (c ≠ Char.ofNat 0))⟩

/-- The text holds no NUL character. -/
def NulFree (s : String) : Prop := Char.ofNat 0 ∉ s.data

instance (s : String) : Decidable (NulFree s) :=
  inferInstanceAs (Decidable (Char.ofNat 0 ∉ s.data))

/-- Method `LogHandler::handle` (lines 40-47), the base behaviour; `dispatch` is the virtual
call `next->handle(logMessage)`. -/
def LogHandler.handle (dispatch : Nat → LogMessage → State → Option Outcome)
    (next : Option Nat) (logMessage : LogMessage) (σ : State) : Option Outcome :=
  match next with
  | some n => dispatch n logMessage σ
  | none => some (σ, .error (what ("Unhandled log message: " ++ logMessage.message)))

/-- The condition of the `if` in `FatalErrorHandler::handle` (line 52). -/
def FatalErrorHandler.claims (t : LogMessageType) : Bool := t = LogMessageType.FatalError

/-- The condition of the `if` in `ErrorHandler::handle` (line 69). -/
def ErrorHandler.claims (t : LogMessageType) : Bool := t = LogMessageType.Error

/-- The condition of the `if` in `WarningHandler::handle` (line 83). -/
def WarningHandler.claims (t : LogMessageType) : Bool := t = LogMessageType.Warning

/-- The condition of the `if` in `UnknownHandler::handle` (line 94). -/
def UnknownHandler.claims (t : LogMessageType) : Bool := t = LogMessageType.Unknown

/-- The claim predicate of a handler kind: the condition of the `if` in the `handle`
override of that class. -/
def HandlerKind.claims : HandlerKind → LogMessageType → Bool
  | .Fatal, t => FatalErrorHandler.claims t
  | .Error, t => ErrorHandler.claims t
  | .Warning, t => WarningHandler.claims t
  | .Unknown, t => UnknownHandler.claims t

/-- Override `FatalErrorHandler::handle` (lines 51-58). -/
def FatalErrorHandler.handle (dispatch : Nat → LogMessage → State → Option Outcome)
    (next : Option Nat) (logMessage : LogMessage) (σ : State) : Option Outcome :=
  if FatalErrorHandler.claims logMessage.type then
    some (σ, .error (what ("Fatal Error: " ++ logMessage.message)))
  else
    LogHandler.handle dispatch next logMessage σ

/-- Override `ErrorHandler::handle` (lines 68-78): the file is opened in append mode and,
when open, receives the text and `std::endl`; a write to an open file is taken to
succeed.  When the file is not open nothing is written and nothing is raised. -/
def ErrorHandler.handle (dispatch : Nat → LogMessage → State → Option Outcome)
    (next : Option Nat) (filePath : String) (logMessage : LogMessage) (σ : State) :
    Option Outcome :=
  if ErrorHandler.claims logMessage.type then
    if σ.openable filePath then
      some ({ σ with
              files := Function.update σ.files filePath
                (σ.files filePath ++ ("Error: " ++ logMessage.message) ++ "\n") }, .ok ())
    else
      some (σ, .ok ())
  else
    LogHandler.handle dispatch next logMessage σ

/-- Override `WarningHandler::handle` (lines 82-89). -/
def WarningHandler.handle (dispatch : Nat → LogMessage → State → Option Outcome)
    (next : Option Nat) (logMessage : LogMessage) (σ : State) : Option Outcome :=
  if WarningHandler.claims logMessage.type then
    some ({ σ with cout := σ.cout ++ ("Warning: " ++ logMessage.message) ++ "\n" }, .ok ())
  else
    LogHandler.handle dispatch next logMessage σ

/-- Override `UnknownHandler::handle` (lines 93-100). -/
def UnknownHandler.handle (dispatch : Nat → LogMessage → State → Option Outcome)
    (next : Option Nat) (logMessage : LogMessage) (σ : State) : Option Outcome :=
  if UnknownHandler.claims logMessage.type then
    some (σ, .error (what ("Unknown log message: " ++ logMessage.message)))
  else
    LogHandler.handle dispatch next logMessage σ

/-- The virtual call `self->handle(logMessage)`: the override of the receiver's dynamic
class runs.  `none` means the fuel ran out (or the reference is dangling, which a
`shared_ptr` excludes). -/
def handle : Nat → Nat → LogMessage → State → Option Outcome
  | 0, _, _, _ => none
  | fuel + 1, self, logMessage, σ =>
    match σ.heap[self]? with
    | none => none
    | some obj =>
      let σ1 := { σ with calls := σ.calls ++ [(self, logMessage)] }
      match obj.cls with
      | .FatalErrorHandler =>
        FatalErrorHandler.handle (handle fuel) obj.next logMessage σ1
      | .ErrorHandler filePath =>
        ErrorHandler.handle (handle fuel) obj.next filePath logMessage σ1
      | .WarningHandler =>
        WarningHandler.handle (handle fuel) obj.next logMessage σ1
      | .UnknownHandler =>
        UnknownHandler.handle (handle fuel) obj.next logMessage σ1

/-! ## Chain assembly and the driver -/

/-- Allocate one handler object per class, in list order; returns their references. -/
def allocAll : List HandlerClass → State → List Nat × State
  | [], σ => ([], σ)
  | c :: cs, σ =>
    let a := makeShared c σ
    let b := allocAll cs a.2
    (a.1 :: b.1, b.2)

/-- Link consecutive handlers with `setNext`, in list order. -/
def linkAll : List Nat → State → State
  | r1 :: r2 :: rs, σ => linkAll (r2 :: rs) (setNext r1 (some r2) σ)
  | _, σ => σ

/-- A chain assembled the way the driver does it: every handler is created with
`make_shared`, then each one gets its list successor through `setNext`.  Returns the
references of the handlers (the head first) and the state. -/
def buildChain (cs : List HandlerClass) (σ : State) : List Nat × State :=
  let a := allocAll cs σ
  (a.1, linkAll a.1 a.2)

/-- The chain of the driver, by class: Fatal, Error, Warning, Unknown. -/
def driverClasses (path : String) : List HandlerClass :=
  [.FatalErrorHandler, .ErrorHandler path, .WarningHandler, .UnknownHandler]

/-- Lines 103-110 of `main`: four `make_shared`, three `setNext`.  Returns the
reference `fatalHandler` and the state. -/
def assemble (path : String) (σ : State) : Nat × State :=
  let f := makeShared .FatalErrorHandler σ
  let e := makeShared (.ErrorHandler path) f.2
  let w := makeShared .WarningHandler e.2
  let u := makeShared .UnknownHandler w.2
  let σ1 := setNext f.1 (some e.1) u.2
  let σ2 := setNext e.1 (some w.1) σ1
  let σ3 := setNext w.1 (some u.1) σ2
  (f.1, σ3)

/-- Sequencing of two statements: the second runs only when the first completes
without raising. -/
def andThen (a b : State → Option Outcome) (σ : State) : Option Outcome :=
  match a σ with
  | none => none
  | some (σ1, .ok ()) => b σ1
  | some (σ1, .error e) => some (σ1, .error e)

/-- The statement `try { body } catch (const std::exception& ex) { std::cerr << ex.what()
<< std::endl; }` of the driver (lines 117-124 and 126-131). -/
def tryCatch (body : State → Option Outcome) (σ : State) : Option Outcome :=
  match body σ with
  | none => none
  | some (σ1, .ok ()) => some (σ1, .ok ())
  | some (σ1, .error e) => some ({ σ1 with cerr := σ1.cerr ++ e ++ "\n" }, .ok ())

/-- The driver `main` (lines 102-134) as a function of the four messages it submits:
the chain is assembled, messages 1, 2, 3 are dispatched inside the first `try`, message 4
inside the second one, and 0 is returned.  An exception leaving `main` would be the
`Except.error` component. -/
def mainWith (m1 m2 m3 m4 : LogMessage) (fuel : Nat) (σ : State) :
    Option (State × Except String Int) :=
  let a := assemble "errors.log" σ
  let fatalHandler := a.1
  let prog :=
    andThen
      (tryCatch
        (andThen (handle fuel fatalHandler m1)
          (andThen (handle fuel fatalHandler m2) (handle fuel fatalHandler m3))))
      (tryCatch (handle fuel fatalHandler m4))
  match prog a.2 with
  | none => none
  | some (σ1, .ok ()) => some (σ1, .ok 0)
  | some (σ1, .error e) => some (σ1, .error e)

/-- The message `warningMessage` of the driver (line 112). -/
def warningMessage : LogMessage := ⟨.Warning, "This is a warning"⟩

/-- The message `errorMessage` of the driver (line 113). -/
def errorMessage : LogMessage := ⟨.Error, "This is an error"⟩

/-- The message `fatalErrorMessage` of the driver (line 114). -/
def fatalErrorMessage : LogMessage := ⟨.FatalError, "This is a fatal error"⟩

/-- The message `unknownMessage` of the driver (line 115). -/
def unknownMessage : LogMessage := ⟨.Unknown, "This is an unknown message"⟩

/-- The driver `main` (lines 102-134). -/
def main (fuel : Nat) (σ : State) : Option (State × Except String Int) :=
  mainWith warningMessage errorMessage fatalErrorMessage unknownMessage fuel σ

/-! ## Reference definitions, after the specification -/

/-- The severity a handler class is responsible for (spec 4.3-4.6: "Claims ..."). -/
def HandlerClass.severity : HandlerClass → LogMessageType
  | .FatalErrorHandler => .FatalError
  | .ErrorHandler _ => .Error
  | .WarningHandler => .Warning
  | .UnknownHandler => .Unknown

/-- The terminal action of a handler class (spec 4.3-4.6).  A failure is given by its
description, the `what()` text. -/
def terminalAction : HandlerClass → LogMessage → State → Outcome
  | .FatalErrorHandler, m, σ => (σ, .error (what ("Fatal Error: " ++ m.message)))
  | .ErrorHandler path, m, σ =>
    if σ.openable path then
      ({ σ with files := Function.update σ.files path
                  (σ.files path ++ ("Error: " ++ m.message) ++ "\n") }, .ok ())
    else (σ, .ok ())
  | .WarningHandler, m, σ =>
    ({ σ with cout := σ.cout ++ ("Warning: " ++ m.message) ++ "\n" }, .ok ())
  | .UnknownHandler, m, σ => (σ, .error (what ("Unknown log message: " ++ m.message)))

/-- The state after the handlers `ps` have been evaluated on `m`. -/
def entered (ps : List (Nat × HandlerClass)) (m : LogMessage) (σ : State) : State :=
  { σ with calls := σ.calls ++ ps.map (fun p => (p.1, m)) }

/-- Reference dispatch over a chain given as the list of its handlers (reference and
class, head first): the first handler whose severity equals the severity of the message
performs its terminal action, and the handlers evaluated are those before it and itself;
when there is no such handler every handler is evaluated and the result is the
"Unhandled log message" failure (given by its `what()` text). -/
def refDispatch (chain : List (Nat × HandlerClass)) (m : LogMessage) (σ : State) : Outcome :=
  match chain.find? (fun p => decide (p.2.severity = m.type)) with
  | some p =>
    terminalAction p.2 m
      (entered (chain.takeWhile (fun q => !decide (q.2.severity = m.type)) ++ [p]) m σ)
  | none => (entered chain m σ, .error (what ("Unhandled log message: " ++ m.message)))

/-- The objects of `chain` are linked in list order and the last link is null. -/
def IsChain (heap : List HandlerObj) : List (Nat × HandlerClass) → Prop
  | [] => True
  | [p] => heap[p.1]? = some ⟨p.2, none⟩
  | p :: q :: rest => heap[p.1]? = some ⟨p.2, some q.1⟩ ∧ IsChain heap (q :: rest)

/-- Whether the objects of `chain` are linked in list order can be computed. -/
def IsChain.decidable (heap : List HandlerObj) :
    (chain : List (Nat × HandlerClass)) → Decidable (IsChain heap chain)
  | [] => isTrue trivial
  | [p] => inferInstanceAs (Decidable (heap[p.1]? = some ⟨p.2, none⟩))
  | p :: q :: rest =>
    have : Decidable (IsChain heap (q :: rest)) := IsChain.decidable heap (q :: rest)
    inferInstanceAs
      (Decidable (heap[p.1]? = some ⟨p.2, some q.1⟩ ∧ IsChain heap (q :: rest)))

instance (heap : List HandlerObj) (chain : List (Nat × HandlerClass)) :
    Decidable (IsChain heap chain) :=
  IsChain.decidable heap chain

/-- The handlers of the chain assembled from `cs` in state `σ`: reference and class. -/
def chainOf (cs : List HandlerClass) (σ : State) : List (Nat × HandlerClass) :=
  (buildChain cs σ).1.zip cs

/-- The chain of the driver when its first handler is allocated at reference `b`. -/
def driverChainAt (b : Nat) (path : String) : List (Nat × HandlerClass) :=
  [(b, .FatalErrorHandler), (b + 1, .ErrorHandler path), (b + 2, .WarningHandler),
    (b + 3, .UnknownHandler)]

/-! ## Callers used to state the properties -/

/-- Assemble the chain of `cs` and invoke `handle` on its head.  An empty list has no
head to call, which is reported as `none`. -/
def dispatchAtHead (fuel : Nat) (cs : List HandlerClass) (m : LogMessage) (σ : State) :
    Option Outcome :=
  let a := buildChain cs σ
  match a.1 with
  | [] => none
  | head :: _ => handle fuel head m a.2

/-- Dispatch the same message `n` times in sequence at `head`; a raised failure ends
the sequence, as it would in straight-line calling code. -/
def dispatchTimes (fuel head : Nat) (m : LogMessage) : Nat → State → Option Outcome
  | 0, σ => some (σ, .ok ())
  | n + 1, σ => andThen (handle fuel head m) (dispatchTimes fuel head m n) σ

/-- A fresh process: no handler allocated, nothing written, every path can be opened
for append and no file has content. -/
def initState : State :=
  { heap := [], cout := "", cerr := "", openable := fun _ => true, files := fun _ => "",
    calls := [] }

/-- A fresh process in which no file can be opened. -/
def lockedState : State :=
  { heap := [], cout := "", cerr := "", openable := fun _ => false, files := fun _ => "",
    calls := [] }

/-- A process in which no file can be opened and whose only handler is an
`ErrorHandler` that is its own successor. -/
def loopedErrorState : State :=
  { lockedState with heap := [⟨.ErrorHandler "errors.log", some 0⟩] }

/-- What a caller can observe of an outcome: `cout`, `cerr`, the files, and the raised
failure (or normal completion). -/
def observe (o : Outcome) : String × String × (String → String) × Except String Unit :=
  (o.1.cout, o.1.cerr, o.1.files, o.2)

/-- A stream after the given lines, each followed by the line terminator, have been
appended to it. -/
def appendLines (base : String) (lines : List String) : String :=
  lines.foldl (fun acc l => acc ++ l ++ "\n") base

/-- Ghost: the number of delegations `next->handle(...)` between two states, which is
the number of handlers entered after the first one. -/
def forwardingHops (before after : State) : Nat :=
  after.calls.length - before.calls.length - 1

/-- Ghost: the messages with which the handler `head` was entered between two states,
that is, the messages submitted at the head of the chain, in order. -/
def dispatchedAt (head : Nat) (before after : State) : List LogMessage :=
  ((after.calls.drop before.calls.length).filter (fun c => decide (c.1 = head))).map Prod.snd

/-- The result of one dispatch on the driver's chain, by severity: the terminal actions
of lines 53 and 95 raise (the failure is given by its `what()` text, which ends at the
first NUL character of the message text), those of lines 70-73 and 84 complete. -/
def driverResult (m : LogMessage) : Except String Unit :=
  match m.type with
  | .FatalError => .error (what ("Fatal Error: " ++ m.message))
  | .Unknown => .error (what ("Unknown log message: " ++ m.message))
  | .Error => .ok ()
  | .Warning => .ok ()

/-- The descriptions of the failures raised by the given dispatched messages. -/
def failureLines (ms : List LogMessage) : List String :=
  ms.filterMap (fun m =>
    match driverResult m with
    | .error d => some d
    | .ok _ => none)

/-- The messages that the first `try` block of the driver dispatches: a raised failure
leaves the block, so the statements after the raising call do not run. -/
def submittedInFirstTry (m1 m2 m3 : LogMessage) : List LogMessage :=
  match driverResult m1 with
  | .error _ => [m1]
  | .ok _ =>
    match driverResult m2 with
    | .error _ => [m1, m2]
    | .ok _ => [m1, m2, m3]

/-- The successor link of the object at `r`: `none` when the link is null (or when
there is no object at `r`). -/
def successor (heap : List HandlerObj) (r : Nat) : Option Nat :=
  match heap[r]? with
  | some obj => obj.next
  | none => none

/-- The handler reached from `head` after `k` forwarding hops along the successor
links, if the links lead that far. -/
def nodeAt (heap : List HandlerObj) (head : Nat) : Nat → Option Nat
  | 0 => some head
  | k + 1 =>
    match nodeAt heap head k with
    | some r => successor heap r
    | none => none

/-- A process with a Fatal handler and a Warning handler that `setNext` has made each
other's successor: the links reachable from object 0 form a cycle. -/
def cyclicState : State :=
  let f := makeShared .FatalErrorHandler initState
  let w := makeShared .WarningHandler f.2
  setNext w.1 (some f.1) (setNext f.1 (some w.1) w.2)


/-! ## Dispatch over a linked chain -/

theorem what_append (p t : String) (hp : NulFree p) : what (p ++ t) = p ++ what t := by
  apply String.ext
  simp only [what, String.data_append]
  rw [List.takeWhile_append_of_pos]
  intro c hc
  simp only [decide_eq_true_eq]
  intro h
  exact hp (h ▸ hc)

theorem what_of_nulFree (t : String) (ht : NulFree t) : what t = t := by
  apply String.ext
  simp only [what]
  rw [List.takeWhile_eq_self_iff]
  intro c hc
  simp only [decide_eq_true_eq]
  intro h
  exact ht (h ▸ hc)

theorem what_fatal (t : String) : what ("Fatal Error: " ++ t) = "Fatal Error: " ++ what t :=
  what_append _ t (by decide)

theorem what_unknown (t : String) :
    what ("Unknown log message: " ++ t) = "Unknown log message: " ++ what t :=
  what_append _ t (by decide)

theorem what_unhandled (t : String) :
    what ("Unhandled log message: " ++ t) = "Unhandled log message: " ++ what t :=
  what_append _ t (by decide)

theorem entered_nil (m : LogMessage) (σ : State) : entered [] m σ = σ := by
  simp [entered]

theorem entered_cons (p : Nat × HandlerClass) (ps : List (Nat × HandlerClass))
    (m : LogMessage) (σ : State) :
    entered (p :: ps) m σ = entered ps m { σ with calls := σ.calls ++ [(p.1, m)] } := by
  simp [entered]

theorem refDispatch_nil (m : LogMessage) (σ : State) :
    refDispatch [] m σ = (σ, .error (what ("Unhandled log message: " ++ m.message))) := by
  simp [refDispatch, entered]

theorem refDispatch_cons (p : Nat × HandlerClass) (ps : List (Nat × HandlerClass))
    (m : LogMessage) (σ : State) :
    refDispatch (p :: ps) m σ =
      if p.2.severity = m.type then
        terminalAction p.2 m { σ with calls := σ.calls ++ [(p.1, m)] }
      else refDispatch ps m { σ with calls := σ.calls ++ [(p.1, m)] } := by
  by_cases h : p.2.severity = m.type
  · simp [refDispatch, List.find?, List.takeWhile, h, entered]
  · simp only [refDispatch, List.find?, List.takeWhile, h, decide_False, Bool.not_false,
      if_false, entered_cons, List.cons_append]

theorem handle_chain (m : LogMessage) :
    ∀ (ps : List (Nat × HandlerClass)) (p : Nat × HandlerClass) (σ : State) (fuel : Nat),
      IsChain σ.heap (p :: ps) → ps.length < fuel →
      handle fuel p.1 m σ = some (refDispatch (p :: ps) m σ) := by
  intro ps
  induction ps with
  | nil =>
    intro p σ fuel hc hf
    obtain ⟨fuel, rfl⟩ : ∃ k, fuel = k + 1 := ⟨fuel - 1, by simp at hf; omega⟩
    simp only [IsChain] at hc
    rw [refDispatch_cons, refDispatch_nil]
    obtain ⟨r, c⟩ := p
    cases c <;>
      cases hm : m.type <;>
      simp [handle, hc, FatalErrorHandler.handle, ErrorHandler.handle, WarningHandler.handle,
        UnknownHandler.handle, LogHandler.handle, FatalErrorHandler.claims, ErrorHandler.claims,
        WarningHandler.claims, UnknownHandler.claims, HandlerClass.severity, terminalAction, hm]
    all_goals (split <;> rfl)
  | cons q rest ih =>
    intro p σ fuel hc hf
    obtain ⟨fuel, rfl⟩ : ∃ k, fuel = k + 1 := ⟨fuel - 1, by simp at hf; omega⟩
    simp only [IsChain] at hc
    obtain ⟨hp, hrest⟩ := hc
    have hrec := ih q { σ with calls := σ.calls ++ [(p.1, m)] } fuel hrest
      (by simp at hf; omega)
    rw [refDispatch_cons]
    obtain ⟨r, c⟩ := p
    cases c <;>
      cases hm : m.type <;>
      simp [handle, hp, FatalErrorHandler.handle, ErrorHandler.handle, WarningHandler.handle,
        UnknownHandler.handle, LogHandler.handle, FatalErrorHandler.claims, ErrorHandler.claims,
        WarningHandler.claims, UnknownHandler.claims, HandlerClass.severity, terminalAction, hm,
        hrec]
    all_goals (split <;> rfl)

/-! ## The heap produced by chain assembly -/

theorem setNext_heap_self (self : Nat) (n : Option Nat) (σ : State) (obj : HandlerObj)
    (h : σ.heap[self]? = some obj) :
    (setNext self n σ).heap[self]? = some { obj with next := n } := by
  have hlt : self < σ.heap.length := by
    by_contra hge
    rw [List.getElem?_eq_none (by omega)] at h
    exact absurd h (by simp)
  simp [setNext, h, List.getElem?_set, hlt]

theorem setNext_heap_other (self r : Nat) (n : Option Nat) (σ : State) (h : r ≠ self) :
    (setNext self n σ).heap[r]? = σ.heap[r]? := by
  unfold setNext
  split
  · simp [List.getElem?_set, Ne.symm h]
  · rfl

theorem linkAll_heap_other (r : Nat) :
    ∀ (rs : List Nat) (σ : State), r ∉ rs → (linkAll rs σ).heap[r]? = σ.heap[r]? := by
  intro rs
  induction rs with
  | nil => intro σ _; rfl
  | cons r1 rest ih =>
    intro σ hr
    cases rest with
    | nil => rfl
    | cons r2 rest2 =>
      have h1 : r ≠ r1 := fun e => hr (by simp [e])
      have h2 : r ∉ r2 :: rest2 := fun e => hr (List.mem_cons_of_mem _ e)
      simp only [linkAll]
      rw [ih _ h2, setNext_heap_other _ _ _ _ h1]

theorem linkAll_isChain :
    ∀ (chain : List (Nat × HandlerClass)) (σ : State),
      (chain.map Prod.fst).Nodup →
      (∀ p ∈ chain, σ.heap[p.1]? = some ⟨p.2, none⟩) →
      IsChain (linkAll (chain.map Prod.fst) σ).heap chain := by
  intro chain
  induction chain with
  | nil => intro σ _ _; trivial
  | cons p rest ih =>
    intro σ hnd hobj
    cases rest with
    | nil =>
      simp only [List.map, linkAll, IsChain]
      exact hobj p (by simp)
    | cons q rest2 =>
      simp only [List.map_cons, List.nodup_cons] at hnd
      obtain ⟨hp, hq⟩ := hnd
      have hpq : p.1 ≠ q.1 := fun e => hp (by simp [e])
      simp only [List.map_cons, linkAll, IsChain]
      constructor
      · have := linkAll_heap_other p.1 (q.1 :: rest2.map Prod.fst)
          (setNext p.1 (some q.1) σ) hp
        simp only [linkAll] at this
        rw [this, setNext_heap_self _ _ _ _ (hobj p (by simp))]
      · have hih := ih (setNext p.1 (some q.1) σ) (by simpa using hq) (by
          intro x hx
          have hx1 : x.1 ≠ p.1 := by
            intro e
            apply hp
            rw [← e]
            exact List.mem_map_of_mem Prod.fst hx
          rw [setNext_heap_other _ _ _ _ hx1]
          exact hobj x (List.mem_cons_of_mem _ hx))
        simpa [linkAll] using hih

theorem allocAll_fst :
    ∀ (cs : List HandlerClass) (σ : State),
      (allocAll cs σ).1 = List.range' σ.heap.length cs.length := by
  intro cs
  induction cs with
  | nil => intro σ; rfl
  | cons c rest ih =>
    intro σ
    simp [allocAll, ih, makeShared, List.range']

theorem allocAll_snd :
    ∀ (cs : List HandlerClass) (σ : State),
      (allocAll cs σ).2 =
        { σ with heap := σ.heap ++ cs.map (fun c => { cls := c, next := none }) } := by
  intro cs
  induction cs with
  | nil => intro σ; simp [allocAll]
  | cons c rest ih =>
    intro σ
    simp [allocAll, ih, makeShared]

theorem chainOf_fst (cs : List HandlerClass) (σ : State) :
    (chainOf cs σ).map Prod.fst = List.range' σ.heap.length cs.length := by
  simp [chainOf, buildChain, allocAll_fst, List.map_fst_zip]

theorem chainOf_snd (cs : List HandlerClass) (σ : State) :
    (chainOf cs σ).map Prod.snd = cs := by
  simp [chainOf, buildChain, allocAll_fst, List.map_snd_zip]

theorem buildChain_isChain (cs : List HandlerClass) (σ : State) :
    IsChain (buildChain cs σ).2.heap (chainOf cs σ) := by
  have h := linkAll_isChain (chainOf cs σ) (allocAll cs σ).2
    (by rw [chainOf_fst]; exact List.nodup_range' _ _)
    (by
      intro p hp
      rw [allocAll_snd]
      simp only [chainOf, buildChain, allocAll_fst] at hp
      obtain ⟨i, hi, hpi⟩ := List.getElem_of_mem hp
      simp at hi
      subst hpi
      simp only [List.getElem_zip, List.getElem_range']
      rw [List.getElem?_append_right (by omega)]
      simp [hi])
  rw [chainOf_fst, ← allocAll_fst] at h
  exact h

theorem chainOf_driver (path : String) (σ : State) :
    chainOf (driverClasses path) σ = driverChainAt σ.heap.length path := by
  simp [chainOf, buildChain, allocAll_fst, driverClasses, driverChainAt, List.range']

theorem assemble_eq_buildChain (path : String) (σ : State) :
    assemble path σ = (σ.heap.length, (buildChain (driverClasses path) σ).2) := rfl

theorem setNext_frame (self : Nat) (n : Option Nat) (σ : State) :
    (setNext self n σ).cout = σ.cout ∧ (setNext self n σ).cerr = σ.cerr ∧
    (setNext self n σ).openable = σ.openable ∧ (setNext self n σ).files = σ.files ∧
    (setNext self n σ).calls = σ.calls := by
  unfold setNext
  split <;> simp

theorem linkAll_frame :
    ∀ (rs : List Nat) (σ : State),
      (linkAll rs σ).cout = σ.cout ∧ (linkAll rs σ).cerr = σ.cerr ∧
      (linkAll rs σ).openable = σ.openable ∧ (linkAll rs σ).files = σ.files ∧
      (linkAll rs σ).calls = σ.calls := by
  intro rs
  induction rs with
  | nil => intro σ; simp [linkAll]
  | cons r1 rest ih =>
    intro σ
    cases rest with
    | nil => simp [linkAll]
    | cons r2 rest2 =>
      obtain ⟨h1, h2, h3, h4, h5⟩ := ih (setNext r1 (some r2) σ)
      obtain ⟨g1, g2, g3, g4, g5⟩ := setNext_frame r1 (some r2) σ
      simp only [linkAll]
      exact ⟨h1.trans g1, h2.trans g2, h3.trans g3, h4.trans g4, h5.trans g5⟩

theorem buildChain_frame (cs : List HandlerClass) (σ : State) :
    (buildChain cs σ).2.cout = σ.cout ∧ (buildChain cs σ).2.cerr = σ.cerr ∧
    (buildChain cs σ).2.openable = σ.openable ∧ (buildChain cs σ).2.files = σ.files ∧
    (buildChain cs σ).2.calls = σ.calls := by
  obtain ⟨h1, h2, h3, h4, h5⟩ := linkAll_frame (allocAll cs σ).1 (allocAll cs σ).2
  simp only [buildChain]
  rw [h1, h2, h3, h4, h5, allocAll_snd]
  simp

theorem dispatchAtHead_eq (fuel : Nat) (cs : List HandlerClass) (m : LogMessage) (σ : State)
    (hne : cs ≠ []) (hfuel : cs.length ≤ fuel) :
    dispatchAtHead fuel cs m σ =
      some (refDispatch (chainOf cs σ) m (buildChain cs σ).2) := by
  have hc := buildChain_isChain cs σ
  cases cs with
  | nil => exact absurd rfl hne
  | cons c rest =>
    have hz : chainOf (c :: rest) σ =
        (σ.heap.length, c) :: (List.range' (σ.heap.length + 1) rest.length).zip rest := by
      simp [chainOf, buildChain, allocAll_fst, List.range']
    rw [hz] at hc ⊢
    have hh := handle_chain m _ _ _ fuel hc (by simp at hfuel ⊢; omega)
    simp only [dispatchAtHead]
    have hb : (buildChain (c :: rest) σ).1 =
        σ.heap.length :: List.range' (σ.heap.length + 1) rest.length := by
      simp [buildChain, allocAll_fst, List.range']
    rw [hb]
    exact hh

/-! ## The claims -/

/-- C1: for every non-empty list of concrete handlers linked by `setNext` in list order
and every message, `handle` invoked at the head (with fuel at least the length of the
chain) returns exactly the reference result: the terminal action of the first handler
in list order whose severity equals the severity of the message, the handlers evaluated
being those up to and including it; or, when no handler has that severity, the
"Unhandled log message" failure after every handler has been evaluated. -/
theorem handle_refines_reference (cs : List HandlerClass) (m : LogMessage) (σ : State)
    (fuel : Nat) (hne : cs ≠ []) (hfuel : cs.length ≤ fuel) :
    dispatchAtHead fuel cs m σ =
      some (refDispatch (chainOf cs σ) m (buildChain cs σ).2) :=
  dispatchAtHead_eq fuel cs m σ hne hfuel

theorem handle_refines_reference_witness :
    driverClasses "errors.log" ≠ [] ∧ (driverClasses "errors.log").length ≤ 4 ∧
    dispatchAtHead 4 (driverClasses "errors.log") warningMessage initState =
      some (refDispatch (chainOf (driverClasses "errors.log") initState) warningMessage
        (buildChain (driverClasses "errors.log") initState).2) :=
  ⟨by decide, by decide,
    handle_refines_reference (driverClasses "errors.log") warningMessage initState 4
      (by decide) (by decide)⟩

theorem refDispatch_driver_fatal (b : Nat) (path t : String) (τ : State) :
    refDispatch (driverChainAt b path) ⟨.FatalError, t⟩ τ =
      ({ τ with calls := τ.calls ++ [(b, ⟨.FatalError, t⟩)] },
        .error (what ("Fatal Error: " ++ t))) := by
  simp [refDispatch, driverChainAt, List.find?, List.takeWhile, HandlerClass.severity,
    LogMessage.type, LogMessage.message, terminalAction, entered]

theorem refDispatch_driver_error (b : Nat) (path t : String) (τ : State) :
    refDispatch (driverChainAt b path) ⟨.Error, t⟩ τ =
      (if τ.openable path then
        { τ with
          calls := τ.calls ++ [(b, ⟨.Error, t⟩), (b + 1, ⟨.Error, t⟩)]
          files := Function.update τ.files path (τ.files path ++ ("Error: " ++ t) ++ "\n") }
       else { τ with calls := τ.calls ++ [(b, ⟨.Error, t⟩), (b + 1, ⟨.Error, t⟩)] },
        .ok ()) := by
  by_cases h : τ.openable path <;>
  simp [refDispatch, driverChainAt, List.find?, List.takeWhile, HandlerClass.severity,
    LogMessage.type, LogMessage.message, terminalAction, entered, h]

theorem refDispatch_driver_warning (b : Nat) (path t : String) (τ : State) :
    refDispatch (driverChainAt b path) ⟨.Warning, t⟩ τ =
      ({ τ with
          calls := τ.calls ++ [(b, ⟨.Warning, t⟩), (b + 1, ⟨.Warning, t⟩), (b + 2, ⟨.Warning, t⟩)]
          cout := τ.cout ++ ("Warning: " ++ t) ++ "\n" }, .ok ()) := by
  simp [refDispatch, driverChainAt, List.find?, List.takeWhile, HandlerClass.severity,
    LogMessage.type, LogMessage.message, terminalAction, entered]

theorem refDispatch_driver_unknown (b : Nat) (path t : String) (τ : State) :
    refDispatch (driverChainAt b path) ⟨.Unknown, t⟩ τ =
      ({ τ with
          calls := τ.calls ++ [(b, ⟨.Unknown, t⟩), (b + 1, ⟨.Unknown, t⟩),
            (b + 2, ⟨.Unknown, t⟩), (b + 3, ⟨.Unknown, t⟩)] },
        .error (what ("Unknown log message: " ++ t))) := by
  simp [refDispatch, driverChainAt, List.find?, List.takeWhile, HandlerClass.severity,
    LogMessage.type, LogMessage.message, terminalAction, entered]

/-- Dispatch at the head of the driver's chain, in any state whose heap holds it. -/
theorem handle_driverChainAt (b : Nat) (path : String) (m : LogMessage) (τ : State)
    (fuel : Nat) (hc : IsChain τ.heap (driverChainAt b path)) (hfuel : 4 ≤ fuel) :
    handle fuel b m τ = some (refDispatch (driverChainAt b path) m τ) :=
  handle_chain m _ (b, .FatalErrorHandler) τ fuel hc (by simp; omega)

theorem assemble_isChain (path : String) (σ : State) :
    IsChain (assemble path σ).2.heap (driverChainAt σ.heap.length path) := by
  have h := buildChain_isChain (driverClasses path) σ
  rw [chainOf_driver] at h
  exact h

theorem assemble_frame (path : String) (σ : State) :
    (assemble path σ).2.cout = σ.cout ∧ (assemble path σ).2.cerr = σ.cerr ∧
    (assemble path σ).2.openable = σ.openable ∧ (assemble path σ).2.files = σ.files ∧
    (assemble path σ).2.calls = σ.calls :=
  buildChain_frame (driverClasses path) σ

/-- C2: on the chain Fatal, Error, Warning, Unknown assembled as in the driver, for every
text, `handle` on a Warning message completes without raising, appends exactly
"Warning: " ++ text and the line terminator to `cout` and leaves every file and `cerr`
unchanged, whether or not the sink can be opened; `handle` on an Error message, when the
sink can be opened, completes without raising, appends exactly "Error: " ++ text and the
line terminator to the sink and leaves `cout`, `cerr` and every other file unchanged. -/
theorem driver_warning_and_error (tw te path : String) (σ : State) (fuel : Nat)
    (hfuel : 4 ≤ fuel) :
    (∃ σ1, handle fuel (assemble path σ).1 ⟨.Warning, tw⟩ (assemble path σ).2
          = some (σ1, .ok ()) ∧
        σ1.cout = σ.cout ++ ("Warning: " ++ tw) ++ "\n" ∧
        σ1.files = σ.files ∧ σ1.cerr = σ.cerr) ∧
    (σ.openable path = true →
      ∃ σ2, handle fuel (assemble path σ).1 ⟨.Error, te⟩ (assemble path σ).2
          = some (σ2, .ok ()) ∧
        σ2.files = Function.update σ.files path (σ.files path ++ ("Error: " ++ te) ++ "\n") ∧
        σ2.cout = σ.cout ∧ σ2.cerr = σ.cerr) := by
  obtain ⟨h1, h2, h3, h4, _⟩ := assemble_frame path σ
  have hc := assemble_isChain path σ
  constructor
  · have hw := handle_driverChainAt σ.heap.length path ⟨.Warning, tw⟩ _ fuel hc hfuel
    rw [refDispatch_driver_warning] at hw
    exact ⟨_, hw, by simp [h1], by simp [h4], by simp [h2]⟩
  · intro hopen
    have hw := handle_driverChainAt σ.heap.length path ⟨.Error, te⟩ _ fuel hc hfuel
    rw [refDispatch_driver_error, h3, hopen, if_pos rfl] at hw
    exact ⟨_, hw, by simp [h4], by simp [h1], by simp [h2]⟩

theorem driver_warning_and_error_witness :
    4 ≤ 4 ∧ lockedState.openable "errors.log" = false ∧
    initState.openable "errors.log" = true ∧
    (∃ σ1, handle 4 (assemble "errors.log" lockedState).1 ⟨.Warning, "This is a warning"⟩
          (assemble "errors.log" lockedState).2 = some (σ1, .ok ()) ∧
        σ1.cout = lockedState.cout ++ ("Warning: " ++ "This is a warning") ++ "\n" ∧
        σ1.files = lockedState.files ∧ σ1.cerr = lockedState.cerr) ∧
    (∃ σ2, handle 4 (assemble "errors.log" initState).1 ⟨.Error, "This is an error"⟩
          (assemble "errors.log" initState).2 = some (σ2, .ok ()) ∧
        σ2.files = Function.update initState.files "errors.log"
          (initState.files "errors.log" ++ ("Error: " ++ "This is an error") ++ "\n") ∧
        σ2.cout = initState.cout ∧ σ2.cerr = initState.cerr) :=
  ⟨by decide, rfl, rfl,
    (driver_warning_and_error "This is a warning" "This is an error" "errors.log"
      lockedState 4 (by decide)).1,
    (driver_warning_and_error "This is a warning" "This is an error" "errors.log"
      initState 4 (by decide)).2 rfl⟩

/-- C3 (as stated, refuted): for the text made of the characters a, NUL, b, `handle` on
the FatalError message raises with the description "Fatal Error: a", which is not
"Fatal Error: " ++ text, and on the Unknown message with "Unknown log message: a": the
description is the C string `what()` and ends at the NUL. -/
theorem driver_fatal_description_counterexample :
    (handle 4 (assemble "errors.log" initState).1 ⟨.FatalError, "a\x00b"⟩
        (assemble "errors.log" initState).2).map Prod.snd = some (.error "Fatal Error: a") ∧
    "Fatal Error: a" ≠ "Fatal Error: " ++ "a\x00b" ∧
    (handle 4 (assemble "errors.log" initState).1 ⟨.Unknown, "a\x00b"⟩
        (assemble "errors.log" initState).2).map Prod.snd =
      some (.error "Unknown log message: a") ∧
    "Unknown log message: a" ≠ "Unknown log message: " ++ "a\x00b" :=
  ⟨rfl, by decide, rfl, by decide⟩

/-- C3 (amended): on the chain Fatal, Error, Warning, Unknown assembled as in the driver,
for every text, `handle` on a FatalError message raises with description
"Fatal Error: " ++ text cut at the first NUL character of the text, and `handle` on an
Unknown message raises with description "Unknown log message: " ++ text cut at the first
NUL character of the text; for a text without NUL character nothing is cut, so the
description is the prefix followed by the whole text; in both cases `cout`, `cerr` and
every file are left unchanged. -/
theorem driver_fatal_and_unknown (tf tu path : String) (σ : State) (fuel : Nat)
    (hfuel : 4 ≤ fuel) :
    (∃ σ1, handle fuel (assemble path σ).1 ⟨.FatalError, tf⟩ (assemble path σ).2
          = some (σ1, .error ("Fatal Error: " ++ what tf)) ∧
        σ1.cout = σ.cout ∧ σ1.files = σ.files ∧ σ1.cerr = σ.cerr) ∧
    (∃ σ2, handle fuel (assemble path σ).1 ⟨.Unknown, tu⟩ (assemble path σ).2
          = some (σ2, .error ("Unknown log message: " ++ what tu)) ∧
        σ2.cout = σ.cout ∧ σ2.files = σ.files ∧ σ2.cerr = σ.cerr) ∧
    (NulFree tf → "Fatal Error: " ++ what tf = "Fatal Error: " ++ tf) ∧
    (NulFree tu → "Unknown log message: " ++ what tu = "Unknown log message: " ++ tu) := by
  obtain ⟨h1, h2, _, h4, _⟩ := assemble_frame path σ
  have hc := assemble_isChain path σ
  refine ⟨?_, ?_, ?_, ?_⟩
  · have hw := handle_driverChainAt σ.heap.length path ⟨.FatalError, tf⟩ _ fuel hc hfuel
    rw [refDispatch_driver_fatal, what_fatal] at hw
    exact ⟨_, hw, by simp [h1], by simp [h4], by simp [h2]⟩
  · have hw := handle_driverChainAt σ.heap.length path ⟨.Unknown, tu⟩ _ fuel hc hfuel
    rw [refDispatch_driver_unknown, what_unknown] at hw
    exact ⟨_, hw, by simp [h1], by simp [h4], by simp [h2]⟩
  · intro h
    rw [what_of_nulFree tf h]
  · intro h
    rw [what_of_nulFree tu h]

theorem driver_fatal_and_unknown_witness :
    4 ≤ 4 ∧ NulFree "This is a fatal error" ∧ NulFree "This is an unknown message" ∧
    (∃ σ1, handle 4 (assemble "errors.log" initState).1
          ⟨.FatalError, "This is a fatal error"⟩ (assemble "errors.log" initState).2
          = some (σ1, .error ("Fatal Error: " ++ what "This is a fatal error")) ∧
        σ1.cout = initState.cout ∧ σ1.files = initState.files ∧ σ1.cerr = initState.cerr) ∧
    (∃ σ2, handle 4 (assemble "errors.log" initState).1
          ⟨.Unknown, "This is an unknown message"⟩ (assemble "errors.log" initState).2
          = some (σ2, .error ("Unknown log message: " ++ what "This is an unknown message")) ∧
        σ2.cout = initState.cout ∧ σ2.files = initState.files ∧ σ2.cerr = initState.cerr) ∧
    "Fatal Error: " ++ what "This is a fatal error" =
      "Fatal Error: " ++ "This is a fatal error" ∧
    "Unknown log message: " ++ what "This is an unknown message" =
      "Unknown log message: " ++ "This is an unknown message" :=
  ⟨by decide, by decide, by decide,
    (driver_fatal_and_unknown "This is a fatal error" "This is an unknown message"
      "errors.log" initState 4 (by decide)).1,
    (driver_fatal_and_unknown "This is a fatal error" "This is an unknown message"
      "errors.log" initState 4 (by decide)).2.1,
    (driver_fatal_and_unknown "This is a fatal error" "This is an unknown message"
      "errors.log" initState 4 (by decide)).2.2.1 (by decide),
    (driver_fatal_and_unknown "This is a fatal error" "This is an unknown message"
      "errors.log" initState 4 (by decide)).2.2.2 (by decide)⟩

/-! ### Claim predicates -/

theorem claims_iff_severity (c : HandlerClass) (t : LogMessageType) :
    c.kind.claims t = true ↔ c.severity = t := by
  cases c <;> cases t <;>
    simp [HandlerClass.kind, HandlerKind.claims, HandlerClass.severity,
      FatalErrorHandler.claims, ErrorHandler.claims, WarningHandler.claims,
      UnknownHandler.claims]

theorem mem_chainOf_snd (cs : List HandlerClass) (σ : State) (p : Nat × HandlerClass)
    (hp : p ∈ chainOf cs σ) : p.2 ∈ cs := by
  have h := List.mem_map_of_mem Prod.snd hp
  rwa [chainOf_snd] at h

theorem refDispatch_unclaimed (chain : List (Nat × HandlerClass)) (m : LogMessage)
    (τ : State) (hun : ∀ p ∈ chain, p.2.severity ≠ m.type) :
    refDispatch chain m τ =
      (entered chain m τ, .error (what ("Unhandled log message: " ++ m.message))) := by
  have hnone : chain.find? (fun p => decide (p.2.severity = m.type)) = none := by
    rw [List.find?_eq_none]
    intro p hp
    simpa using hun p hp
  simp [refDispatch, hnone]

/-- C4 (as stated, refuted): on the chain made of one Warning handler, the Error message
whose text is made of the characters a, NUL, b raises the failure with description
"Unhandled log message: a", which is not "Unhandled log message: " ++ text: the
description is the C string `what()` and ends at the NUL, so it does not carry the exact
original text. -/
theorem chain_exhaustion_counterexample :
    (dispatchAtHead 1 [HandlerClass.WarningHandler] ⟨.Error, "a\x00b"⟩ initState).map Prod.snd =
      some (.error "Unhandled log message: a") ∧
    "Unhandled log message: a" ≠ "Unhandled log message: " ++ "a\x00b" :=
  ⟨rfl, by decide⟩

/-- C4 (amended): for every non-empty chain of concrete handlers assembled with `setNext`
and every message whose severity no handler of the chain claims, `handle` at the head
raises the failure with description "Unhandled log message: " ++ text cut at the first
NUL character of the text (the whole text when it holds no NUL character) and leaves
`cout`, `cerr` and every file unchanged. -/
theorem chain_exhaustion (cs : List HandlerClass) (m : LogMessage) (σ : State) (fuel : Nat)
    (hne : cs ≠ []) (hfuel : cs.length ≤ fuel)
    (hun : ∀ c ∈ cs, c.kind.claims m.type = false) :
    (∃ σ1, dispatchAtHead fuel cs m σ =
        some (σ1, .error ("Unhandled log message: " ++ what m.message)) ∧
      σ1.cout = σ.cout ∧ σ1.files = σ.files ∧ σ1.cerr = σ.cerr) ∧
    (NulFree m.message →
      "Unhandled log message: " ++ what m.message = "Unhandled log message: " ++ m.message) := by
  obtain ⟨h1, h2, _, h4, _⟩ := buildChain_frame cs σ
  have hd := dispatchAtHead_eq fuel cs m σ hne hfuel
  rw [refDispatch_unclaimed _ _ _ (by
    intro p hp hsev
    have := hun p.2 (mem_chainOf_snd cs σ p hp)
    rw [(claims_iff_severity p.2 m.type).mpr hsev] at this
    exact absurd this (by simp)), what_unhandled] at hd
  refine ⟨⟨_, hd, by simp [entered, h1], by simp [entered, h4], by simp [entered, h2]⟩, ?_⟩
  intro h
  rw [what_of_nulFree _ h]

theorem chain_exhaustion_witness :
    [HandlerClass.WarningHandler] ≠ [] ∧ [HandlerClass.WarningHandler].length ≤ 1 ∧
    (∀ c ∈ [HandlerClass.WarningHandler],
      c.kind.claims (LogMessage.mk .Error "x").type = false) ∧
    NulFree (LogMessage.mk .Error "x").message ∧
    (∃ σ1, dispatchAtHead 1 [HandlerClass.WarningHandler] ⟨.Error, "x"⟩ initState =
        some (σ1, .error ("Unhandled log message: " ++ what (LogMessage.mk .Error "x").message)) ∧
      σ1.cout = initState.cout ∧ σ1.files = initState.files ∧ σ1.cerr = initState.cerr) ∧
    "Unhandled log message: " ++ what (LogMessage.mk .Error "x").message =
      "Unhandled log message: " ++ (LogMessage.mk .Error "x").message :=
  ⟨by decide, by decide, by decide, by decide,
    (chain_exhaustion [HandlerClass.WarningHandler] ⟨.Error, "x"⟩ initState 1
      (by decide) (by decide) (by decide)).1,
    (chain_exhaustion [HandlerClass.WarningHandler] ⟨.Error, "x"⟩ initState 1
      (by decide) (by decide) (by decide)).2 (by decide)⟩

/-- C6: the claim predicates of two distinct handler kinds are never both true for the
same severity, and every severity is claimed by exactly one of the four kinds. -/
theorem claims_exclusive_and_covering :
    (∀ (k1 k2 : HandlerKind) (t : LogMessageType),
      k1 ≠ k2 → ¬ (k1.claims t = true ∧ k2.claims t = true)) ∧
    (∀ t : LogMessageType, ∃! k : HandlerKind, k.claims t = true) := by
  constructor
  · intro k1 k2 t
    cases k1 <;> cases k2 <;> cases t <;>
      simp [HandlerKind.claims, FatalErrorHandler.claims, ErrorHandler.claims,
        WarningHandler.claims, UnknownHandler.claims]
  · intro t
    cases t
    · refine ⟨.Warning, by decide, ?_⟩
      intro k hk
      cases k <;> first | rfl | exact absurd hk (by decide)
    · refine ⟨.Error, by decide, ?_⟩
      intro k hk
      cases k <;> first | rfl | exact absurd hk (by decide)
    · refine ⟨.Fatal, by decide, ?_⟩
      intro k hk
      cases k <;> first | rfl | exact absurd hk (by decide)
    · refine ⟨.Unknown, by decide, ?_⟩
      intro k hk
      cases k <;> first | rfl | exact absurd hk (by decide)

theorem claims_exclusive_and_covering_witness :
    HandlerKind.Fatal ≠ HandlerKind.Error ∧
    ¬ (HandlerKind.Fatal.claims .FatalError = true ∧
        HandlerKind.Error.claims .FatalError = true) :=
  ⟨by decide, claims_exclusive_and_covering.1 .Fatal .Error .FatalError (by decide)⟩

/-! ### Order of the handlers -/

theorem refDispatch_claimed (chain : List (Nat × HandlerClass)) (m : LogMessage) (τ : State)
    (hex : ∃ p ∈ chain, p.2.severity = m.type) :
    ∃ p L, p ∈ chain ∧ p.2.severity = m.type ∧
      refDispatch chain m τ = terminalAction p.2 m (entered L m τ) := by
  cases hf : chain.find? (fun p => decide (p.2.severity = m.type)) with
  | none =>
    rw [List.find?_eq_none] at hf
    obtain ⟨p, hp, hs⟩ := hex
    exact absurd hs (by simpa using hf p hp)
  | some p =>
    refine ⟨p, chain.takeWhile (fun q => !decide (q.2.severity = m.type)) ++ [p],
      List.mem_of_find?_eq_some hf, ?_, ?_⟩
    · simpa using List.find?_some hf
    · simp only [refDispatch, hf]

theorem observe_terminalAction (c : HandlerClass) (m : LogMessage) (τ τ2 : State)
    (h1 : τ.cout = τ2.cout) (h2 : τ.cerr = τ2.cerr) (h3 : τ.files = τ2.files)
    (h4 : τ.openable = τ2.openable) :
    observe (terminalAction c m τ) = observe (terminalAction c m τ2) := by
  cases c with
  | ErrorHandler path =>
    by_cases ho : τ2.openable path <;> simp [terminalAction, observe, h1, h2, h3, h4, ho]
  | _ => simp [terminalAction, observe, h1, h2, h3]

theorem terminalAction_ne_unhandled (c : HandlerClass) (m : LogMessage) (τ : State) :
    (terminalAction c m τ).2 ≠ .error ("Unhandled log message: " ++ m.message) ∧
    (terminalAction c m τ).2 ≠ .error (what ("Unhandled log message: " ++ m.message)) := by
  cases c with
  | FatalErrorHandler =>
    constructor <;>
    · intro h
      simp only [terminalAction, Except.error.injEq, what_fatal, what_unhandled] at h
      have := congrArg String.data h
      simp at this
  | ErrorHandler path =>
    by_cases ho : τ.openable path <;> simp [terminalAction, ho]
  | WarningHandler => simp [terminalAction]
  | UnknownHandler =>
    constructor <;>
    · intro h
      simp only [terminalAction, Except.error.injEq, what_unknown, what_unhandled] at h
      have := congrArg String.data h
      simp at this

theorem driverClasses_covers (path : String) (t : LogMessageType) :
    ∃ c ∈ driverClasses path, c.severity = t := by
  cases t
  · exact ⟨.WarningHandler, by simp [driverClasses], rfl⟩
  · exact ⟨.ErrorHandler path, by simp [driverClasses], rfl⟩
  · exact ⟨.FatalErrorHandler, by simp [driverClasses], rfl⟩
  · exact ⟨.UnknownHandler, by simp [driverClasses], rfl⟩

theorem driverClasses_unique (path : String) (c1 c2 : HandlerClass)
    (h1 : c1 ∈ driverClasses path) (h2 : c2 ∈ driverClasses path)
    (hs : c1.severity = c2.severity) : c1 = c2 := by
  simp only [driverClasses, List.mem_cons, List.mem_singleton, List.not_mem_nil,
    or_false] at h1 h2
  rcases h1 with rfl | rfl | rfl | rfl <;> rcases h2 with rfl | rfl | rfl | rfl <;>
    first | rfl | exact absurd hs (by simp [HandlerClass.severity])

theorem exists_mem_chainOf (cs : List HandlerClass) (σ : State) (c : HandlerClass)
    (hc : c ∈ cs) : ∃ p ∈ chainOf cs σ, p.2 = c := by
  rw [← chainOf_snd cs σ, List.mem_map] at hc
  exact hc

theorem observe_dispatch_perm (cs : List HandlerClass) (path : String) (m : LogMessage)
    (σ : State) (hperm : cs.Perm (driverClasses path)) :
    observe (refDispatch (chainOf cs σ) m (buildChain cs σ).2) =
      observe (refDispatch (chainOf (driverClasses path) σ) m
        (buildChain (driverClasses path) σ).2) ∧
    (refDispatch (chainOf cs σ) m (buildChain cs σ).2).2 ≠
      .error ("Unhandled log message: " ++ m.message) ∧
    (refDispatch (chainOf cs σ) m (buildChain cs σ).2).2 ≠
      .error (what ("Unhandled log message: " ++ m.message)) := by
  obtain ⟨c0, hc0, hs0⟩ := driverClasses_covers path m.type
  obtain ⟨q1, hq1, hq1c⟩ := exists_mem_chainOf cs σ c0 (hperm.mem_iff.mpr hc0)
  obtain ⟨q2, hq2, hq2c⟩ := exists_mem_chainOf (driverClasses path) σ c0 hc0
  obtain ⟨p1, L1, hp1, hs1, e1⟩ := refDispatch_claimed (chainOf cs σ) m
    (buildChain cs σ).2 ⟨q1, hq1, by rw [hq1c]; exact hs0⟩
  obtain ⟨p2, L2, hp2, hs2, e2⟩ := refDispatch_claimed (chainOf (driverClasses path) σ) m
    (buildChain (driverClasses path) σ).2 ⟨q2, hq2, by rw [hq2c]; exact hs0⟩
  have hcls : p1.2 = p2.2 :=
    driverClasses_unique path p1.2 p2.2
      (hperm.mem_iff.mp (mem_chainOf_snd cs σ p1 hp1))
      (mem_chainOf_snd _ σ p2 hp2) (hs1.trans hs2.symm)
  obtain ⟨a1, a2, a3, a4, _⟩ := buildChain_frame cs σ
  obtain ⟨b1, b2, b3, b4, _⟩ := buildChain_frame (driverClasses path) σ
  rw [e1, e2, hcls]
  refine ⟨?_, ?_, ?_⟩
  · apply observe_terminalAction
    · simp [entered, a1, b1]
    · simp [entered, a2, b2]
    · simp [entered, a4, b4]
    · simp [entered, a3, b3]
  · exact (terminalAction_ne_unhandled _ _ _).1
  · exact (terminalAction_ne_unhandled _ _ _).2

/-- C5: for every permutation of the four handlers Fatal, Error, Warning, Unknown and
every message, `handle` at the head of the chain wired in the permuted order returns,
and what it leaves observable (the raised failure with its description, `cout`, `cerr`
and the files) is the same as for the chain wired in the order Fatal, Error, Warning,
Unknown; the raised failure is never the "Unhandled log message" one, whether its
description is taken as the whole text or as the `what()` text the code reports. -/
theorem order_independence (cs : List HandlerClass) (path : String) (m : LogMessage)
    (σ : State) (fuel : Nat) (hperm : cs.Perm (driverClasses path)) (hfuel : 4 ≤ fuel) :
    ∃ o1 o2, dispatchAtHead fuel cs m σ = some o1 ∧
      dispatchAtHead fuel (driverClasses path) m σ = some o2 ∧
      observe o1 = observe o2 ∧
      o1.2 ≠ .error ("Unhandled log message: " ++ m.message) ∧
      o1.2 ≠ .error (what ("Unhandled log message: " ++ m.message)) := by
  have hlen : cs.length = 4 := by rw [hperm.length_eq]; rfl
  have hne : cs ≠ [] := by
    intro h
    rw [h] at hlen
    exact absurd hlen (by decide)
  obtain ⟨ho, hu, hw⟩ := observe_dispatch_perm cs path m σ hperm
  exact ⟨_, _, dispatchAtHead_eq fuel cs m σ hne (by omega),
    dispatchAtHead_eq fuel (driverClasses path) m σ (by simp [driverClasses])
      (by simp [driverClasses]; omega), ho, hu, hw⟩

theorem order_independence_witness :
    (driverClasses "errors.log").reverse.Perm (driverClasses "errors.log") ∧ 4 ≤ 4 ∧
    ∃ o1 o2,
      dispatchAtHead 4 (driverClasses "errors.log").reverse errorMessage initState = some o1 ∧
      dispatchAtHead 4 (driverClasses "errors.log") errorMessage initState = some o2 ∧
      observe o1 = observe o2 ∧
      o1.2 ≠ .error ("Unhandled log message: " ++ errorMessage.message) ∧
      o1.2 ≠ .error (what ("Unhandled log message: " ++ errorMessage.message)) :=
  ⟨List.reverse_perm _, by decide,
    order_independence (driverClasses "errors.log").reverse "errors.log" errorMessage
      initState 4 (List.reverse_perm _) (by decide)⟩

/-! ### Repeated dispatch -/

theorem appendLines_replicate_succ (base line : String) (n : Nat) :
    appendLines (base ++ line ++ "\n") (List.replicate n line) =
      appendLines base (List.replicate (n + 1) line) := by
  simp [appendLines, List.replicate_succ]

theorem dispatchTimes_warning (b : Nat) (path t : String) (fuel : Nat) (hfuel : 4 ≤ fuel) :
    ∀ (n : Nat) (τ : State), IsChain τ.heap (driverChainAt b path) →
      ∃ τ1, dispatchTimes fuel b ⟨.Warning, t⟩ n τ = some (τ1, .ok ()) ∧
        τ1.cout = appendLines τ.cout (List.replicate n ("Warning: " ++ t)) ∧
        τ1.files = τ.files ∧ τ1.cerr = τ.cerr := by
  intro n
  induction n with
  | zero => intro τ _; exact ⟨τ, rfl, rfl, rfl, rfl⟩
  | succ k ih =>
    intro τ hc
    have hw := handle_driverChainAt b path ⟨.Warning, t⟩ τ fuel hc hfuel
    rw [refDispatch_driver_warning] at hw
    obtain ⟨τ1, e, h1, h2, h3⟩ := ih _ (show IsChain
      ({ τ with
          calls := τ.calls ++ [(b, ⟨.Warning, t⟩), (b + 1, ⟨.Warning, t⟩), (b + 2, ⟨.Warning, t⟩)]
          cout := τ.cout ++ ("Warning: " ++ t) ++ "\n" } : State).heap
      (driverChainAt b path) from hc)
    refine ⟨τ1, ?_, ?_, h2, h3⟩
    · simp only [dispatchTimes, andThen, hw, e]
    · rw [h1]
      exact appendLines_replicate_succ _ _ _

theorem dispatchTimes_error (b : Nat) (path t : String) (fuel : Nat) (hfuel : 4 ≤ fuel) :
    ∀ (n : Nat) (τ : State), IsChain τ.heap (driverChainAt b path) →
      τ.openable path = true →
      ∃ τ1, dispatchTimes fuel b ⟨.Error, t⟩ n τ = some (τ1, .ok ()) ∧
        τ1.files = Function.update τ.files path
          (appendLines (τ.files path) (List.replicate n ("Error: " ++ t))) ∧
        τ1.cout = τ.cout ∧ τ1.cerr = τ.cerr := by
  intro n
  induction n with
  | zero =>
    intro τ _ _
    exact ⟨τ, rfl, by simp [appendLines], rfl, rfl⟩
  | succ k ih =>
    intro τ hc ho
    have hw := handle_driverChainAt b path ⟨.Error, t⟩ τ fuel hc hfuel
    rw [refDispatch_driver_error, ho, if_pos rfl] at hw
    obtain ⟨τ1, e, h1, h2, h3⟩ := ih _ (show IsChain
      ({ τ with
          calls := τ.calls ++ [(b, ⟨.Error, t⟩), (b + 1, ⟨.Error, t⟩)]
          files := Function.update τ.files path
            (τ.files path ++ ("Error: " ++ t) ++ "\n") } : State).heap
      (driverChainAt b path) from hc) ho
    refine ⟨τ1, ?_, ?_, h2, h3⟩
    · simp only [dispatchTimes, andThen, hw, e]
    · rw [h1]
      simp only [Function.update_same, Function.update_idem]
      rw [appendLines_replicate_succ]

/-- C7: on the chain Fatal, Error, Warning, Unknown assembled as in the driver, for every
number n and every text, dispatching the same Warning message n times in sequence
raises nothing and appends exactly n identical lines "Warning: " ++ text to `cout`
(files and `cerr` unchanged), whether or not the sink can be opened; dispatching the same
Error message n times, the sink being openable, raises nothing and appends exactly n
identical lines "Error: " ++ text to the sink (`cout`, `cerr` and the other files
unchanged). -/
theorem repeated_dispatch_not_deduplicated (n : Nat) (t path : String) (σ : State)
    (fuel : Nat) (hfuel : 4 ≤ fuel) :
    (∃ σ1, dispatchTimes fuel (assemble path σ).1 ⟨.Warning, t⟩ n (assemble path σ).2
          = some (σ1, .ok ()) ∧
        σ1.cout = appendLines σ.cout (List.replicate n ("Warning: " ++ t)) ∧
        σ1.files = σ.files ∧ σ1.cerr = σ.cerr) ∧
    (σ.openable path = true →
      ∃ σ2, dispatchTimes fuel (assemble path σ).1 ⟨.Error, t⟩ n (assemble path σ).2
          = some (σ2, .ok ()) ∧
        σ2.files = Function.update σ.files path
          (appendLines (σ.files path) (List.replicate n ("Error: " ++ t))) ∧
        σ2.cout = σ.cout ∧ σ2.cerr = σ.cerr) := by
  obtain ⟨h1, h2, h3, h4, _⟩ := assemble_frame path σ
  have hc := assemble_isChain path σ
  constructor
  · obtain ⟨σ1, e, g1, g2, g3⟩ := dispatchTimes_warning σ.heap.length path t fuel hfuel n _ hc
    exact ⟨σ1, e, by rw [g1, h1], by rw [g2, h4], by rw [g3, h2]⟩
  · intro hopen
    obtain ⟨σ2, e, g1, g2, g3⟩ := dispatchTimes_error σ.heap.length path t fuel hfuel n _ hc
      (by rw [h3]; exact hopen)
    exact ⟨σ2, e, by rw [g1, h4], by rw [g2, h1], by rw [g3, h2]⟩

theorem repeated_dispatch_not_deduplicated_witness :
    4 ≤ 4 ∧ lockedState.openable "errors.log" = false ∧
    initState.openable "errors.log" = true ∧
    (∃ σ1, dispatchTimes 4 (assemble "errors.log" lockedState).1 ⟨.Warning, "w"⟩ 3
          (assemble "errors.log" lockedState).2 = some (σ1, .ok ()) ∧
        σ1.cout = appendLines lockedState.cout (List.replicate 3 ("Warning: " ++ "w")) ∧
        σ1.files = lockedState.files ∧ σ1.cerr = lockedState.cerr) ∧
    (∃ σ2, dispatchTimes 4 (assemble "errors.log" initState).1 ⟨.Error, "w"⟩ 3
          (assemble "errors.log" initState).2 = some (σ2, .ok ()) ∧
        σ2.files = Function.update initState.files "errors.log"
          (appendLines (initState.files "errors.log")
            (List.replicate 3 ("Error: " ++ "w"))) ∧
        σ2.cout = initState.cout ∧ σ2.cerr = initState.cerr) :=
  ⟨by decide, rfl, rfl,
    (repeated_dispatch_not_deduplicated 3 "w" "errors.log" lockedState 4 (by decide)).1,
    (repeated_dispatch_not_deduplicated 3 "w" "errors.log" initState 4 (by decide)).2 rfl⟩

/-! ### The error handler -/

/-- C8: for every Error message and every successor link of an `ErrorHandler` (null, or
a reference to anything), `handle` on that handler returns normally with one unit of
fuel, so without calling the successor: the only handler entered is the `ErrorHandler`
itself; when the sink cannot be opened nothing is written anywhere, and when it can be
opened the only write is the line "Error: " ++ text appended to the sink. -/
theorem errorHandler_best_effort_no_forward (σ : State) (self : Nat) (path : String)
    (nx : Option Nat) (m : LogMessage) (fuel : Nat)
    (hobj : σ.heap[self]? = some ⟨.ErrorHandler path, nx⟩)
    (hm : m.type = LogMessageType.Error) :
    handle (fuel + 1) self m σ =
      some (if σ.openable path = true then
          { σ with
            calls := σ.calls ++ [(self, m)]
            files := Function.update σ.files path
              (σ.files path ++ ("Error: " ++ m.message) ++ "\n") }
        else { σ with calls := σ.calls ++ [(self, m)] }, .ok ()) := by
  by_cases ho : σ.openable path = true <;>
    simp [handle, hobj, ErrorHandler.handle, ErrorHandler.claims, hm, ho]

theorem errorHandler_best_effort_no_forward_witness :
    loopedErrorState.heap[0]? = some ⟨.ErrorHandler "errors.log", some 0⟩ ∧
    errorMessage.type = LogMessageType.Error ∧
    handle (0 + 1) 0 errorMessage loopedErrorState =
      some (if loopedErrorState.openable "errors.log" = true then
          { loopedErrorState with
            calls := loopedErrorState.calls ++ [(0, errorMessage)]
            files := Function.update loopedErrorState.files "errors.log"
              (loopedErrorState.files "errors.log" ++
                ("Error: " ++ errorMessage.message) ++ "\n") }
        else { loopedErrorState with calls := loopedErrorState.calls ++ [(0, errorMessage)] },
        .ok ()) :=
  ⟨rfl, rfl,
    errorHandler_best_effort_no_forward loopedErrorState 0 "errors.log" (some 0)
      errorMessage 0 rfl rfl⟩

/-! ### Forwarding hops on the driver's chain -/

theorem handle_assembled (path : String) (m : LogMessage) (σ : State) (fuel : Nat)
    (hfuel : 4 ≤ fuel) :
    handle fuel (assemble path σ).1 m (assemble path σ).2 =
      some (refDispatch (driverChainAt σ.heap.length path) m (assemble path σ).2) :=
  handle_driverChainAt σ.heap.length path m _ fuel (assemble_isChain path σ) hfuel

/-- C9 (as stated, refuted): on the fresh chain of the driver a Warning message reaches
its terminal action after two forwarding hops, which is neither zero nor one. -/
theorem driver_hops_counterexample :
    ∃ σ1, handle 4 (assemble "errors.log" initState).1 warningMessage
        (assemble "errors.log" initState).2 = some (σ1, .ok ()) ∧
      forwardingHops (assemble "errors.log" initState).2 σ1 = 2 ∧
      ¬ (forwardingHops (assemble "errors.log" initState).2 σ1 = 0 ∨
          forwardingHops (assemble "errors.log" initState).2 σ1 = 1) := by
  have hw := handle_assembled "errors.log" warningMessage initState 4 (by decide)
  rw [show warningMessage = ⟨.Warning, "This is a warning"⟩ from rfl,
    refDispatch_driver_warning] at hw
  refine ⟨_, hw, ?_, ?_⟩
  · rfl
  · intro h
    rcases h with h | h <;> exact absurd h (by decide)

/-- C9 (amended): on the fresh chain Fatal, Error, Warning, Unknown of the driver, for
every severity and text `handle` at the head returns, and the number of forwarding hops
before the terminal action is the position of the claiming handler in the chain: 0 for
FatalError, 1 for Error, 2 for Warning and 3 for Unknown. -/
theorem driver_forwarding_hops (ty : LogMessageType) (t path : String) (σ : State)
    (fuel : Nat) (hfuel : 4 ≤ fuel) :
    ∃ σ1 res, handle fuel (assemble path σ).1 ⟨ty, t⟩ (assemble path σ).2 = some (σ1, res) ∧
      forwardingHops (assemble path σ).2 σ1 =
        (match ty with
          | .FatalError => 0
          | .Error => 1
          | .Warning => 2
          | .Unknown => 3) ∧
      forwardingHops (assemble path σ).2 σ1 =
        (driverClasses path).findIdx (fun c => c.kind.claims ty) := by
  have hw := handle_assembled path ⟨ty, t⟩ σ fuel hfuel
  cases ty
  · rw [refDispatch_driver_warning] at hw
    exact ⟨_, _, hw, by simp [forwardingHops], by
      simp [forwardingHops, driverClasses, List.findIdx_cons, HandlerClass.kind,
        HandlerKind.claims, FatalErrorHandler.claims, ErrorHandler.claims,
        WarningHandler.claims]⟩
  · rw [refDispatch_driver_error] at hw
    refine ⟨_, _, hw, ?_, ?_⟩
    · by_cases ho : (assemble path σ).2.openable path = true <;> simp [forwardingHops, ho]
    · by_cases ho : (assemble path σ).2.openable path = true <;>
        simp [forwardingHops, ho, driverClasses, List.findIdx_cons, HandlerClass.kind,
          HandlerKind.claims, FatalErrorHandler.claims, ErrorHandler.claims]
  · rw [refDispatch_driver_fatal] at hw
    exact ⟨_, _, hw, by simp [forwardingHops], by
      simp [forwardingHops, driverClasses, List.findIdx_cons, HandlerClass.kind,
        HandlerKind.claims, FatalErrorHandler.claims]⟩
  · rw [refDispatch_driver_unknown] at hw
    exact ⟨_, _, hw, by simp [forwardingHops], by
      simp [forwardingHops, driverClasses, List.findIdx_cons, HandlerClass.kind,
        HandlerKind.claims, FatalErrorHandler.claims, ErrorHandler.claims,
        WarningHandler.claims, UnknownHandler.claims]⟩

theorem driver_forwarding_hops_witness :
    4 ≤ 4 ∧
    ∃ σ1 res, handle 4 (assemble "errors.log" initState).1 ⟨.Unknown, "u"⟩
        (assemble "errors.log" initState).2 = some (σ1, res) ∧
      forwardingHops (assemble "errors.log" initState).2 σ1 =
        (match LogMessageType.Unknown with
          | .FatalError => 0
          | .Error => 1
          | .Warning => 2
          | .Unknown => 3) ∧
      forwardingHops (assemble "errors.log" initState).2 σ1 =
        (driverClasses "errors.log").findIdx (fun c => c.kind.claims .Unknown) :=
  ⟨by decide, driver_forwarding_hops .Unknown "u" "errors.log" initState 4 (by decide)⟩

/-! ### The catch policy of the driver -/

/-- One dispatch on the driver's chain: the result is `driverResult`, the heap and `cerr`
are untouched, and among the handlers entered only the first is the head. -/
theorem handle_driver_step (b : Nat) (path : String) (m : LogMessage) (τ : State)
    (fuel : Nat) (hc : IsChain τ.heap (driverChainAt b path)) (hfuel : 4 ≤ fuel) :
    ∃ τ1 L, handle fuel b m τ = some (τ1, driverResult m) ∧ τ1.heap = τ.heap ∧
      τ1.cerr = τ.cerr ∧ τ1.calls = τ.calls ++ L ∧
      (L.filter (fun c => decide (c.1 = b))).map Prod.snd = [m] := by
  have hw := handle_driverChainAt b path m τ fuel hc hfuel
  obtain ⟨ty, t⟩ := m
  cases ty
  · rw [refDispatch_driver_warning] at hw
    exact ⟨_, _, hw, rfl, rfl, rfl, by simp [List.filter]⟩
  · rw [refDispatch_driver_error] at hw
    by_cases ho : τ.openable path = true
    · rw [if_pos ho] at hw
      exact ⟨_, _, hw, rfl, rfl, rfl, by simp [List.filter]⟩
    · rw [if_neg ho] at hw
      exact ⟨_, _, hw, rfl, rfl, rfl, by simp [List.filter]⟩
  · rw [refDispatch_driver_fatal] at hw
    exact ⟨_, _, hw, rfl, rfl, rfl, by simp [List.filter]⟩
  · rw [refDispatch_driver_unknown] at hw
    exact ⟨_, _, hw, rfl, rfl, rfl, by simp [List.filter]⟩

/-- A `try` block around one dispatch never lets a failure out and prints it. -/
theorem tryCatch_single (b : Nat) (path : String) (m : LogMessage) (τ : State)
    (fuel : Nat) (hc : IsChain τ.heap (driverChainAt b path)) (hfuel : 4 ≤ fuel) :
    ∃ τ1 L, tryCatch (handle fuel b m) τ = some (τ1, .ok ()) ∧ τ1.heap = τ.heap ∧
      τ1.cerr = appendLines τ.cerr (failureLines [m]) ∧ τ1.calls = τ.calls ++ L ∧
      (L.filter (fun c => decide (c.1 = b))).map Prod.snd = [m] := by
  obtain ⟨τ1, L, e, h1, h2, h3, h4⟩ := handle_driver_step b path m τ fuel hc hfuel
  cases hr : driverResult m with
  | error d =>
    rw [hr] at e
    exact ⟨{ τ1 with cerr := τ1.cerr ++ d ++ "\n" }, L, by simp only [tryCatch, e], h1,
      by simp [failureLines, hr, appendLines, h2], h3, h4⟩
  | ok u =>
    rw [hr] at e
    exact ⟨τ1, L, by simp only [tryCatch, e], h1,
      by simp [failureLines, hr, appendLines, h2], h3, h4⟩

/-- The first `try` block of the driver: a failure ends the block and is printed. -/
theorem tryCatch_first_block (b : Nat) (path : String) (m1 m2 m3 : LogMessage) (τ : State)
    (fuel : Nat) (hc : IsChain τ.heap (driverChainAt b path)) (hfuel : 4 ≤ fuel) :
    ∃ τ1 L,
      tryCatch (andThen (handle fuel b m1) (andThen (handle fuel b m2) (handle fuel b m3))) τ
        = some (τ1, .ok ()) ∧ τ1.heap = τ.heap ∧
      τ1.cerr = appendLines τ.cerr (failureLines (submittedInFirstTry m1 m2 m3)) ∧
      τ1.calls = τ.calls ++ L ∧
      (L.filter (fun c => decide (c.1 = b))).map Prod.snd = submittedInFirstTry m1 m2 m3 := by
  obtain ⟨τ1, L1, e1, a1, b1, c1, d1⟩ := handle_driver_step b path m1 τ fuel hc hfuel
  cases hr1 : driverResult m1 with
  | error x1 =>
    rw [hr1] at e1
    exact ⟨{ τ1 with cerr := τ1.cerr ++ x1 ++ "\n" }, L1,
      by simp only [tryCatch, andThen, e1], a1,
      by simp [failureLines, submittedInFirstTry, hr1, appendLines, b1], c1,
      by simp [submittedInFirstTry, hr1, d1]⟩
  | ok u1 =>
    rw [hr1] at e1
    obtain ⟨τ2, L2, e2, a2, b2, c2, d2⟩ :=
      handle_driver_step b path m2 τ1 fuel (by rw [a1]; exact hc) hfuel
    cases hr2 : driverResult m2 with
    | error x2 =>
      rw [hr2] at e2
      exact ⟨{ τ2 with cerr := τ2.cerr ++ x2 ++ "\n" }, L1 ++ L2,
        by simp only [tryCatch, andThen, e1, e2], a2.trans a1,
        by simp [failureLines, submittedInFirstTry, hr1, hr2, appendLines, b1, b2],
        by simp [c1, c2],
        by simp [submittedInFirstTry, hr1, hr2, d1, d2]⟩
    | ok u2 =>
      rw [hr2] at e2
      obtain ⟨τ3, L3, e3, a3, b3, c3, d3⟩ :=
        handle_driver_step b path m3 τ2 fuel (by rw [a2, a1]; exact hc) hfuel
      cases hr3 : driverResult m3 with
      | error x3 =>
        rw [hr3] at e3
        exact ⟨{ τ3 with cerr := τ3.cerr ++ x3 ++ "\n" }, L1 ++ (L2 ++ L3),
          by simp only [tryCatch, andThen, e1, e2, e3],
          a3.trans (a2.trans a1),
          by simp [failureLines, submittedInFirstTry, hr1, hr2, hr3, appendLines, b1, b2, b3],
          by simp [c1, c2, c3],
          by simp [submittedInFirstTry, hr1, hr2, d1, d2, d3]⟩
      | ok u3 =>
        rw [hr3] at e3
        exact ⟨τ3, L1 ++ (L2 ++ L3), by simp only [tryCatch, andThen, e1, e2, e3],
          a3.trans (a2.trans a1),
          by simp [failureLines, submittedInFirstTry, hr1, hr2, hr3, appendLines, b1, b2, b3],
          by simp [c1, c2, c3],
          by simp [submittedInFirstTry, hr1, hr2, d1, d2, d3]⟩

theorem appendLines_append (base : String) (xs ys : List String) :
    appendLines (appendLines base xs) ys = appendLines base (xs ++ ys) := by
  simp [appendLines]

theorem failureLines_append (xs ys : List LogMessage) :
    failureLines (xs ++ ys) = failureLines xs ++ failureLines ys := by
  simp [failureLines]

theorem mainWith_spec (m1 m2 m3 m4 : LogMessage) (σ : State) (fuel : Nat)
    (hfuel : 4 ≤ fuel) :
    ∃ σ1, mainWith m1 m2 m3 m4 fuel σ = some (σ1, .ok 0) ∧
      dispatchedAt σ.heap.length σ σ1 = submittedInFirstTry m1 m2 m3 ++ [m4] ∧
      σ1.cerr = appendLines σ.cerr (failureLines (submittedInFirstTry m1 m2 m3 ++ [m4])) := by
  obtain ⟨_, f2, _, _, f5⟩ := assemble_frame "errors.log" σ
  have hc := assemble_isChain "errors.log" σ
  obtain ⟨τ1, L1, e1, a1, b1, c1, d1⟩ :=
    tryCatch_first_block σ.heap.length "errors.log" m1 m2 m3 _ fuel hc hfuel
  obtain ⟨τ2, L2, e2, _, b2, c2, d2⟩ :=
    tryCatch_single σ.heap.length "errors.log" m4 τ1 fuel (by rw [a1]; exact hc) hfuel
  refine ⟨τ2, ?_, ?_, ?_⟩
  · simp only [mainWith, andThen]
    rw [show (assemble "errors.log" σ).1 = σ.heap.length from rfl, e1]
    simp only [e2]
  · simp [dispatchedAt, c2, c1, f5, List.filter_append, d1, d2]
  · rw [b2, b1, f2, appendLines_append, failureLines_append]

/-- C10 (as stated, refuted): when the first message submitted by the driver is a
FatalError, the two messages after it in the first `try` block are never dispatched:
only the first and the fourth message reach the head of the chain, and the Warning
submitted second is not printed. -/
theorem driver_catch_counterexample :
    (mainWith fatalErrorMessage warningMessage errorMessage unknownMessage 4 initState).map
        (fun r => (dispatchedAt 0 initState r.1, r.1.cout, r.1.files "errors.log", r.2)) =
      some ([fatalErrorMessage, unknownMessage], "", "", .ok 0) := by
  rfl

/-- C10 (amended): for every choice of the four messages the driver returns 0 and no
failure leaves it; one dispatch on its chain yields `driverResult`, that is, a FatalError
or Unknown message raises with description "Fatal Error: " or "Unknown log message: "
followed by the text cut at its first NUL character (the `what()` text), and a Warning or
Error message raises nothing; the messages dispatched are those of the first `try` block
up to and including the first one that raises (all three when none raises), followed by
message 4, which is always dispatched; and `cerr` receives, in order, the description of
every failure raised. -/
theorem driver_catch_policy (m1 m2 m3 m4 : LogMessage) (σ : State) (fuel : Nat)
    (hfuel : 4 ≤ fuel) :
    (∀ m, ∃ τ, handle fuel (assemble "errors.log" σ).1 m (assemble "errors.log" σ).2 =
        some (τ, driverResult m)) ∧
    (∀ t, driverResult ⟨.FatalError, t⟩ = .error ("Fatal Error: " ++ what t) ∧
      driverResult ⟨.Unknown, t⟩ = .error ("Unknown log message: " ++ what t) ∧
      driverResult ⟨.Warning, t⟩ = .ok () ∧ driverResult ⟨.Error, t⟩ = .ok ()) ∧
    ∃ σ1, mainWith m1 m2 m3 m4 fuel σ = some (σ1, .ok 0) ∧
      dispatchedAt (assemble "errors.log" σ).1 σ σ1 = submittedInFirstTry m1 m2 m3 ++ [m4] ∧
      σ1.cerr = appendLines σ.cerr (failureLines (submittedInFirstTry m1 m2 m3 ++ [m4])) := by
  refine ⟨?_, ?_, mainWith_spec m1 m2 m3 m4 σ fuel hfuel⟩
  · intro m
    obtain ⟨τ, _, e, _⟩ := handle_driver_step σ.heap.length "errors.log" m _ fuel
      (assemble_isChain "errors.log" σ) hfuel
    exact ⟨τ, e⟩
  · intro t
    refine ⟨?_, ?_, rfl, rfl⟩
    · rw [← what_fatal]
      rfl
    · rw [← what_unknown]
      rfl

theorem driver_catch_policy_witness :
    4 ≤ 4 ∧
    ((∀ m, ∃ τ, handle 4 (assemble "errors.log" initState).1 m
        (assemble "errors.log" initState).2 = some (τ, driverResult m)) ∧
    (∀ t, driverResult ⟨.FatalError, t⟩ = .error ("Fatal Error: " ++ what t) ∧
      driverResult ⟨.Unknown, t⟩ = .error ("Unknown log message: " ++ what t) ∧
      driverResult ⟨.Warning, t⟩ = .ok () ∧ driverResult ⟨.Error, t⟩ = .ok ()) ∧
    ∃ σ1, mainWith warningMessage errorMessage fatalErrorMessage unknownMessage 4 initState
        = some (σ1, .ok 0) ∧
      dispatchedAt (assemble "errors.log" initState).1 initState σ1 =
        submittedInFirstTry warningMessage errorMessage fatalErrorMessage ++
          [unknownMessage] ∧
      σ1.cerr = appendLines initState.cerr
        (failureLines (submittedInFirstTry warningMessage errorMessage fatalErrorMessage ++
          [unknownMessage]))) :=
  ⟨by decide,
    driver_catch_policy warningMessage errorMessage fatalErrorMessage unknownMessage
      initState 4 (by decide)⟩

/-! ### Replacing the successor link -/

theorem handle_forwards (fuel self : Nat) (m : LogMessage) (σ : State) (obj : HandlerObj)
    (nx : Nat) (hobj : σ.heap[self]? = some obj) (hnext : obj.next = some nx)
    (hun : obj.cls.kind.claims m.type = false) :
    handle (fuel + 1) self m σ =
      handle fuel nx m { σ with calls := σ.calls ++ [(self, m)] } := by
  obtain ⟨cls, next⟩ := obj
  simp only at hnext hun
  subst hnext
  cases cls <;>
    simp_all [handle, HandlerClass.kind, HandlerKind.claims, FatalErrorHandler.handle,
      ErrorHandler.handle, WarningHandler.handle, UnknownHandler.handle, LogHandler.handle]

/-- C11: for every handler `h` and handlers `a`, `b`, after `h.setNext(a)` followed by
`h.setNext(b)` the successor link of `h` is `b`, every other object of the heap (its
class and its link) is what it was before the two calls, and a message that `h` does not
claim is forwarded to `b`: `handle` on `h` is `handle` on `b`, entered right after `h`. -/
theorem setNext_replaces_link (σ : State) (h a b : Nat) (obj : HandlerObj) (m : LogMessage)
    (fuel : Nat) (hobj : σ.heap[h]? = some obj)
    (hun : obj.cls.kind.claims m.type = false) :
    (setNext h (some b) (setNext h (some a) σ)).heap[h]? = some { obj with next := some b } ∧
    (∀ r, r ≠ h → (setNext h (some b) (setNext h (some a) σ)).heap[r]? = σ.heap[r]?) ∧
    handle (fuel + 1) h m (setNext h (some b) (setNext h (some a) σ)) =
      handle fuel b m
        { setNext h (some b) (setNext h (some a) σ) with
          calls := (setNext h (some b) (setNext h (some a) σ)).calls ++ [(h, m)] } := by
  have h1 := setNext_heap_self h (some a) σ obj hobj
  have h2 := setNext_heap_self h (some b) (setNext h (some a) σ) _ h1
  refine ⟨h2, ?_, ?_⟩
  · intro r hr
    rw [setNext_heap_other _ _ _ _ hr, setNext_heap_other _ _ _ _ hr]
  · exact handle_forwards fuel h m _ _ b h2 rfl hun

theorem setNext_replaces_link_witness :
    (assemble "errors.log" initState).2.heap[0]? = some ⟨.FatalErrorHandler, some 1⟩ ∧
    (HandlerObj.mk .FatalErrorHandler (some 1)).cls.kind.claims warningMessage.type = false ∧
    ((setNext 0 (some 2) (setNext 0 (some 3) (assemble "errors.log" initState).2)).heap[0]? =
        some { (HandlerObj.mk .FatalErrorHandler (some 1)) with next := some 2 } ∧
    (∀ r, r ≠ 0 →
      (setNext 0 (some 2) (setNext 0 (some 3) (assemble "errors.log" initState).2)).heap[r]? =
        (assemble "errors.log" initState).2.heap[r]?) ∧
    handle (3 + 1) 0 warningMessage
        (setNext 0 (some 2) (setNext 0 (some 3) (assemble "errors.log" initState).2)) =
      handle 3 2 warningMessage
        { setNext 0 (some 2) (setNext 0 (some 3) (assemble "errors.log" initState).2) with
          calls := (setNext 0 (some 2)
            (setNext 0 (some 3) (assemble "errors.log" initState).2)).calls ++
              [(0, warningMessage)] }) :=
  ⟨rfl, rfl,
    setNext_replaces_link (assemble "errors.log" initState).2 0 3 2
      ⟨.FatalErrorHandler, some 1⟩ warningMessage 3 rfl rfl⟩

/-! ### The run of the driver -/

theorem step_warning (b : Nat) (path t : String) (τ : State) (fuel : Nat)
    (hc : IsChain τ.heap (driverChainAt b path)) (hfuel : 4 ≤ fuel) :
    ∃ τ1, handle fuel b ⟨.Warning, t⟩ τ = some (τ1, .ok ()) ∧ τ1.heap = τ.heap ∧
      τ1.openable = τ.openable ∧ τ1.cerr = τ.cerr ∧ τ1.files = τ.files ∧
      τ1.cout = τ.cout ++ ("Warning: " ++ t) ++ "\n" := by
  have hw := handle_driverChainAt b path ⟨.Warning, t⟩ τ fuel hc hfuel
  rw [refDispatch_driver_warning] at hw
  exact ⟨_, hw, rfl, rfl, rfl, rfl, rfl⟩

theorem step_error (b : Nat) (path t : String) (τ : State) (fuel : Nat)
    (hc : IsChain τ.heap (driverChainAt b path)) (hfuel : 4 ≤ fuel)
    (hopen : τ.openable path = true) :
    ∃ τ1, handle fuel b ⟨.Error, t⟩ τ = some (τ1, .ok ()) ∧ τ1.heap = τ.heap ∧
      τ1.openable = τ.openable ∧ τ1.cerr = τ.cerr ∧ τ1.cout = τ.cout ∧
      τ1.files = Function.update τ.files path (τ.files path ++ ("Error: " ++ t) ++ "\n") := by
  have hw := handle_driverChainAt b path ⟨.Error, t⟩ τ fuel hc hfuel
  rw [refDispatch_driver_error, hopen, if_pos rfl] at hw
  exact ⟨_, hw, rfl, rfl, rfl, rfl, rfl⟩

theorem step_fatal (b : Nat) (path t : String) (τ : State) (fuel : Nat)
    (hc : IsChain τ.heap (driverChainAt b path)) (hfuel : 4 ≤ fuel) :
    ∃ τ1, handle fuel b ⟨.FatalError, t⟩ τ =
        some (τ1, .error (what ("Fatal Error: " ++ t))) ∧
      τ1.heap = τ.heap ∧ τ1.openable = τ.openable ∧ τ1.cerr = τ.cerr ∧ τ1.cout = τ.cout ∧
      τ1.files = τ.files := by
  have hw := handle_driverChainAt b path ⟨.FatalError, t⟩ τ fuel hc hfuel
  rw [refDispatch_driver_fatal] at hw
  exact ⟨_, hw, rfl, rfl, rfl, rfl, rfl⟩

theorem step_unknown (b : Nat) (path t : String) (τ : State) (fuel : Nat)
    (hc : IsChain τ.heap (driverChainAt b path)) (hfuel : 4 ≤ fuel) :
    ∃ τ1, handle fuel b ⟨.Unknown, t⟩ τ =
        some (τ1, .error (what ("Unknown log message: " ++ t))) ∧
      τ1.heap = τ.heap ∧ τ1.openable = τ.openable ∧ τ1.cerr = τ.cerr ∧ τ1.cout = τ.cout ∧
      τ1.files = τ.files := by
  have hw := handle_driverChainAt b path ⟨.Unknown, t⟩ τ fuel hc hfuel
  rw [refDispatch_driver_unknown] at hw
  exact ⟨_, hw, rfl, rfl, rfl, rfl, rfl⟩

theorem main_run (σ : State) (fuel : Nat) (hfuel : 4 ≤ fuel)
    (hopen : σ.openable "errors.log" = true) :
    ∃ σ1, main fuel σ = some (σ1, .ok 0) ∧
      σ1.cout = appendLines σ.cout ["Warning: This is a warning"] ∧
      σ1.files = Function.update σ.files "errors.log"
        (appendLines (σ.files "errors.log") ["Error: This is an error"]) ∧
      σ1.cerr = appendLines σ.cerr ["Fatal Error: This is a fatal error",
        "Unknown log message: This is an unknown message"] := by
  obtain ⟨f1, f2, f3, f4, _⟩ := assemble_frame "errors.log" σ
  have hc := assemble_isChain "errors.log" σ
  obtain ⟨τ1, e1, a1, b1, c1, d1, g1⟩ :=
    step_warning σ.heap.length "errors.log" "This is a warning" _ fuel hc hfuel
  obtain ⟨τ2, e2, a2, b2, c2, d2, g2⟩ :=
    step_error σ.heap.length "errors.log" "This is an error" τ1 fuel (by rw [a1]; exact hc)
      hfuel (by rw [b1, f3]; exact hopen)
  obtain ⟨τ3, e3, a3, b3, c3, d3, g3⟩ :=
    step_fatal σ.heap.length "errors.log" "This is a fatal error" τ2 fuel
      (by rw [a2, a1]; exact hc) hfuel
  obtain ⟨τ4, e4, a4, b4, c4, d4, g4⟩ :=
    step_unknown σ.heap.length "errors.log" "This is an unknown message"
      { τ3 with
        cerr := τ3.cerr ++ what ("Fatal Error: " ++ "This is a fatal error") ++ "\n" } fuel
      (by rw [show ({ τ3 with
        cerr := τ3.cerr ++ what ("Fatal Error: " ++ "This is a fatal error") ++ "\n" }
          : State).heap = τ3.heap from rfl, a3, a2, a1]; exact hc) hfuel
  refine ⟨{ τ4 with
    cerr := τ4.cerr ++
      what ("Unknown log message: " ++ "This is an unknown message") ++ "\n" }, ?_, ?_, ?_, ?_⟩
  · simp only [main, mainWith, andThen, tryCatch, warningMessage, errorMessage,
      fatalErrorMessage, unknownMessage]
    rw [show (assemble "errors.log" σ).1 = σ.heap.length from rfl]
    simp only [e1, e2, e3, e4]
  · show τ4.cout = _
    rw [d4]
    show τ3.cout = _
    rw [d3, d2, g1, f1]
    rfl
  · show τ4.files = _
    rw [g4]
    show τ3.files = _
    rw [g3, g2, d1, f4]
    rfl
  · show τ4.cerr ++ _ ++ _ = _
    rw [c4]
    show τ3.cerr ++ _ ++ _ ++ _ ++ _ = _
    rw [c3, c2, c1, f2]
    rfl

/-- C12: starting from empty `cout` and `cerr` and an openable sink, `main` dispatches
its four messages in the order warning, error, fatal, unknown and returns 0 with no
failure leaving it; at the end `cout` holds the one line "Warning: This is a warning",
the sink has gained exactly the line "Error: This is an error", and `cerr` holds the
lines "Fatal Error: This is a fatal error" and
"Unknown log message: This is an unknown message", in that order. -/
theorem driver_observable_run (σ : State) (fuel : Nat) (hfuel : 4 ≤ fuel)
    (hcout : σ.cout = "") (hcerr : σ.cerr = "")
    (hopen : σ.openable "errors.log" = true) :
    ∃ σ1, main fuel σ = some (σ1, .ok 0) ∧
      dispatchedAt (assemble "errors.log" σ).1 σ σ1 =
        [warningMessage, errorMessage, fatalErrorMessage, unknownMessage] ∧
      σ1.cout = appendLines "" ["Warning: This is a warning"] ∧
      σ1.files = Function.update σ.files "errors.log"
        (appendLines (σ.files "errors.log") ["Error: This is an error"]) ∧
      σ1.cerr = appendLines "" ["Fatal Error: This is a fatal error",
        "Unknown log message: This is an unknown message"] := by
  obtain ⟨σ1, e, h1, h2, h3⟩ := main_run σ fuel hfuel hopen
  obtain ⟨σ2, e2, hd, _⟩ := mainWith_spec warningMessage errorMessage fatalErrorMessage
    unknownMessage σ fuel hfuel
  have hs : σ2 = σ1 := by
    have := e2.symm.trans e
    simp only [main, Option.some.injEq, Prod.mk.injEq] at this
    exact this.1
  subst hs
  refine ⟨σ2, e, ?_, ?_, h2, ?_⟩
  · rw [show (assemble "errors.log" σ).1 = σ.heap.length from rfl, hd]
    rfl
  · rw [h1, hcout]
  · rw [h3, hcerr]

theorem driver_observable_run_witness :
    4 ≤ 4 ∧ initState.cout = "" ∧ initState.cerr = "" ∧
    initState.openable "errors.log" = true ∧
    ∃ σ1, main 4 initState = some (σ1, .ok 0) ∧
      dispatchedAt (assemble "errors.log" initState).1 initState σ1 =
        [warningMessage, errorMessage, fatalErrorMessage, unknownMessage] ∧
      σ1.cout = appendLines "" ["Warning: This is a warning"] ∧
      σ1.files = Function.update initState.files "errors.log"
        (appendLines (initState.files "errors.log") ["Error: This is an error"]) ∧
      σ1.cerr = appendLines "" ["Fatal Error: This is a fatal error",
        "Unknown log message: This is an unknown message"] :=
  ⟨by decide, rfl, rfl, rfl, driver_observable_run initState 4 (by decide) rfl rfl rfl⟩

/-! ### Bounded walk -/

theorem terminalAction_calls (c : HandlerClass) (m : LogMessage) (τ : State) :
    (terminalAction c m τ).1.calls = τ.calls := by
  cases c with
  | ErrorHandler path => by_cases ho : τ.openable path <;> simp [terminalAction, ho]
  | _ => simp [terminalAction]

theorem refDispatch_calls_length (m : LogMessage) :
    ∀ (chain : List (Nat × HandlerClass)) (τ : State),
      (refDispatch chain m τ).1.calls.length =
        τ.calls.length +
          (if (chain.map Prod.snd).any (fun c => c.kind.claims m.type) then
            (chain.map Prod.snd).findIdx (fun c => c.kind.claims m.type) + 1
          else chain.length) := by
  intro chain
  induction chain with
  | nil => intro τ; simp [refDispatch_nil]
  | cons p rest ih =>
    intro τ
    rw [refDispatch_cons]
    by_cases hs : p.2.severity = m.type
    · have hcl := (claims_iff_severity p.2 m.type).mpr hs
      simp [hs, hcl, terminalAction_calls, List.findIdx_cons]
    · have hcl : p.2.kind.claims m.type = false := by
        cases h : p.2.kind.claims m.type with
        | false => rfl
        | true => exact absurd ((claims_iff_severity p.2 m.type).mp h) hs
      rw [if_neg hs, ih]
      simp only [List.map_cons, List.any_cons, hcl, Bool.false_or, List.findIdx_cons,
        List.length_append, List.length_singleton, List.length_cons, cond_false,
        List.length_nil]
      split <;> omega

/-- C13: for every non-empty chain of n handlers assembled with `setNext` and every
message, `handle` at the head returns as soon as the fuel is at least n, having evaluated
at most n handlers; the number of forwarding hops is the list index of the first handler
that claims the message, or n - 1 when no handler claims it. -/
theorem bounded_walk (cs : List HandlerClass) (m : LogMessage) (σ : State) (fuel : Nat)
    (hne : cs ≠ []) (hfuel : cs.length ≤ fuel) :
    ∃ σ1 res, dispatchAtHead fuel cs m σ = some (σ1, res) ∧
      σ1.calls.length - (buildChain cs σ).2.calls.length ≤ cs.length ∧
      forwardingHops (buildChain cs σ).2 σ1 =
        (if cs.any (fun c => c.kind.claims m.type) then
          cs.findIdx (fun c => c.kind.claims m.type)
        else cs.length - 1) := by
  have hd := dispatchAtHead_eq fuel cs m σ hne hfuel
  have hl := refDispatch_calls_length m (chainOf cs σ) (buildChain cs σ).2
  rw [chainOf_snd] at hl
  have hlen : (chainOf cs σ).length = cs.length := by
    rw [← List.length_map (chainOf cs σ) Prod.snd, chainOf_snd]
  have hidx : cs.any (fun c => c.kind.claims m.type) = true →
      cs.findIdx (fun c => c.kind.claims m.type) < cs.length := by
    intro h
    exact List.findIdx_lt_length_of_exists (by simpa using h)
  have hpos : 0 < cs.length := List.length_pos.mpr hne
  generalize refDispatch (chainOf cs σ) m (buildChain cs σ).2 = o at hd hl
  obtain ⟨σ1, res⟩ := o
  simp only at hl
  refine ⟨σ1, res, hd, ?_, ?_⟩
  · rw [hl, hlen]
    by_cases h : cs.any (fun c => c.kind.claims m.type) = true
    · have := hidx h
      rw [if_pos h]
      omega
    · rw [if_neg h]
      omega
  · simp only [forwardingHops]
    rw [hl, hlen]
    by_cases h : cs.any (fun c => c.kind.claims m.type) = true
    · rw [if_pos h, if_pos h]
      omega
    · rw [if_neg h, if_neg h]
      omega

theorem bounded_walk_witness :
    driverClasses "errors.log" ≠ [] ∧ (driverClasses "errors.log").length ≤ 4 ∧
    ∃ σ1 res, dispatchAtHead 4 (driverClasses "errors.log") unknownMessage initState =
        some (σ1, res) ∧
      σ1.calls.length - (buildChain (driverClasses "errors.log") initState).2.calls.length ≤
        (driverClasses "errors.log").length ∧
      forwardingHops (buildChain (driverClasses "errors.log") initState).2 σ1 =
        (if (driverClasses "errors.log").any (fun c => c.kind.claims unknownMessage.type) then
          (driverClasses "errors.log").findIdx (fun c => c.kind.claims unknownMessage.type)
        else (driverClasses "errors.log").length - 1) :=
  ⟨by decide, by decide,
    bounded_walk (driverClasses "errors.log") unknownMessage initState 4 (by decide)
      (by decide)⟩

/-! ### Cyclic successor links -/

theorem nodeAt_add (heap : List HandlerObj) (head a : Nat) :
    ∀ d, nodeAt heap head (a + d) =
      match nodeAt heap head a with
      | some r => nodeAt heap r d
      | none => none := by
  intro d
  induction d with
  | zero => cases h : nodeAt heap head a <;> simp [nodeAt, h]
  | succ d ih =>
    rw [← Nat.add_assoc]
    simp only [nodeAt, ih]
    cases h : nodeAt heap head a <;> simp

theorem nodeAt_none_mono (heap : List HandlerObj) (head a d : Nat)
    (h : nodeAt heap head a = none) : nodeAt heap head (a + d) = none := by
  rw [nodeAt_add, h]

theorem nodeAt_period (heap : List HandlerObj) (r p : Nat) (hp : nodeAt heap r p = some r) :
    ∀ n, nodeAt heap r (n * p) = some r := by
  intro n
  induction n with
  | zero => simp [nodeAt]
  | succ n ih =>
    rw [Nat.succ_mul, nodeAt_add, ih]
    exact hp

/-- When the walk from `head` meets the same handler twice it never reaches a null
link. -/
theorem nodeAt_cycle_isSome (heap : List HandlerObj) (head i j r : Nat) (hij : i < j)
    (hi : nodeAt heap head i = some r) (hj : nodeAt heap head j = some r) :
    ∀ k, ∃ x, nodeAt heap head k = some x := by
  have hp : nodeAt heap r (j - i) = some r := by
    have := nodeAt_add heap head i (j - i)
    rw [show i + (j - i) = j by omega, hj, hi] at this
    exact this.symm
  have hr : ∀ k, ∃ x, nodeAt heap r k = some x := by
    intro k
    cases hk : nodeAt heap r k with
    | some x => exact ⟨x, rfl⟩
    | none =>
      have hle : k ≤ k * (j - i) := Nat.le_mul_of_pos_right k (by omega)
      have h1 := nodeAt_none_mono heap r k (k * (j - i) - k) hk
      rw [show k + (k * (j - i) - k) = k * (j - i) by omega, nodeAt_period heap r _ hp] at h1
      exact absurd h1 (by simp)
  intro k
  by_cases hk : k ≤ i
  · cases hx : nodeAt heap head k with
    | some x => exact ⟨x, rfl⟩
    | none =>
      have h1 := nodeAt_none_mono heap head k (i - k) hx
      rw [show k + (i - k) = i by omega, hi] at h1
      exact absurd h1 (by simp)
  · have := nodeAt_add heap head i (k - i)
    rw [show i + (k - i) = k by omega, hi] at this
    rw [this]
    exact hr (k - i)

theorem nodeAt_succ_left (heap : List HandlerObj) (head k : Nat) :
    nodeAt heap head (k + 1) =
      match successor heap head with
      | some r => nodeAt heap r k
      | none => none := by
  have h := nodeAt_add heap head 1 k
  rw [Nat.add_comm 1 k] at h
  rw [h]
  simp only [nodeAt]

/-- A walk that never reaches a null link and never meets a claiming handler exhausts
any amount of fuel. -/
theorem handle_none_of_walk (m : LogMessage) :
    ∀ (fuel head : Nat) (σ : State),
      (∀ k, ∃ x, nodeAt σ.heap head k = some x) →
      (∀ k x obj, nodeAt σ.heap head k = some x → σ.heap[x]? = some obj →
        obj.cls.kind.claims m.type = false) →
      handle fuel head m σ = none := by
  intro fuel
  induction fuel with
  | zero => intro head σ _ _; rfl
  | succ fuel ih =>
    intro head σ hw hun
    obtain ⟨x1, h1⟩ := hw 1
    have hs : successor σ.heap head = some x1 := by simpa [nodeAt] using h1
    cases hobj : σ.heap[head]? with
    | none => simp [successor, hobj] at hs
    | some obj =>
      have hnext : obj.next = some x1 := by simpa [successor, hobj] using hs
      rw [handle_forwards fuel head m σ obj x1 hobj hnext (hun 0 head obj rfl hobj)]
      apply ih
      · intro k
        obtain ⟨y, hy⟩ := hw (k + 1)
        rw [nodeAt_succ_left, hs] at hy
        exact ⟨y, hy⟩
      · intro k x o hk ho
        refine hun (k + 1) x o ?_ ho
        rw [nodeAt_succ_left, hs]
        exact hk

/-- C14: in every handler graph where the successor links reachable from the head form
a cycle (the walk from the head meets some handler twice) and for every message that no
handler reachable from the head claims, dispatch never reaches a terminal state: after
every number k of hops the walk is at a handler that does not claim the message and has
a successor to forward to, and `handle` yields no outcome (neither a terminal action nor
the "Unhandled log message" failure) whatever the fuel. -/
theorem cycle_unbounded_forwarding (σ : State) (head i j r : Nat) (m : LogMessage)
    (hij : i < j) (hi : nodeAt σ.heap head i = some r) (hj : nodeAt σ.heap head j = some r)
    (hun : ∀ k x obj, nodeAt σ.heap head k = some x → σ.heap[x]? = some obj →
      obj.cls.kind.claims m.type = false) :
    ∀ k, (∃ x obj nx, nodeAt σ.heap head k = some x ∧ σ.heap[x]? = some obj ∧
        obj.cls.kind.claims m.type = false ∧ obj.next = some nx) ∧
      handle k head m σ = none := by
  have hw := nodeAt_cycle_isSome σ.heap head i j r hij hi hj
  intro k
  constructor
  · obtain ⟨x, hx⟩ := hw k
    obtain ⟨nx, hnx⟩ := hw (k + 1)
    simp only [nodeAt, hx] at hnx
    cases hobj : σ.heap[x]? with
    | none => simp [successor, hobj] at hnx
    | some obj =>
      exact ⟨x, obj, nx, hx, hobj, hun k x obj hx hobj, by simpa [successor, hobj] using hnx⟩
  · exact handle_none_of_walk m k head σ hw hun

theorem cyclicState_heap :
    cyclicState.heap = [⟨.FatalErrorHandler, some 1⟩, ⟨.WarningHandler, some 0⟩] := rfl

theorem cyclicState_unclaimed (k x : Nat) (obj : HandlerObj)
    (_hk : nodeAt cyclicState.heap 0 k = some x) (ho : cyclicState.heap[x]? = some obj) :
    obj.cls.kind.claims errorMessage.type = false := by
  rw [cyclicState_heap] at ho
  rcases x with _ | _ | x
  · simp only [List.getElem?_cons_zero, Option.some.injEq] at ho
    subst ho
    rfl
  · simp only [List.getElem?_cons_succ, List.getElem?_cons_zero, Option.some.injEq] at ho
    subst ho
    rfl
  · simp at ho

theorem cycle_unbounded_forwarding_witness :
    0 < 2 ∧ nodeAt cyclicState.heap 0 0 = some 0 ∧ nodeAt cyclicState.heap 0 2 = some 0 ∧
    ∀ k, (∃ x obj nx, nodeAt cyclicState.heap 0 k = some x ∧
        cyclicState.heap[x]? = some obj ∧
        obj.cls.kind.claims errorMessage.type = false ∧ obj.next = some nx) ∧
      handle k 0 errorMessage cyclicState = none :=
  ⟨by decide, rfl, rfl,
    cycle_unbounded_forwarding cyclicState 0 0 2 0 errorMessage (by decide) rfl rfl
      cyclicState_unclaimed⟩

/-! ### Dispatch does not write to the chain -/

theorem handle_frame (m : LogMessage) :
    ∀ (fuel self : Nat) (σ : State) (o : Outcome), handle fuel self m σ = some o →
      o.1.heap = σ.heap ∧ o.1.openable = σ.openable ∧
      ∃ L : List (Nat × LogMessage), o.1.calls = σ.calls ++ L ∧ ∀ c ∈ L, c.2 = m := by
  intro fuel
  induction fuel with
  | zero => intro self σ o h; simp [handle] at h
  | succ fuel ih =>
    intro self σ o h
    cases hobj : σ.heap[self]? with
    | none => simp [handle, hobj] at h
    | some obj =>
      obtain ⟨cls, next⟩ := obj
      by_cases hcl : cls.kind.claims m.type = true
      · have hres : o.1.heap = σ.heap ∧ o.1.openable = σ.openable ∧
            o.1.calls = σ.calls ++ [(self, m)] := by
          cases cls <;>
            simp only [handle, hobj, FatalErrorHandler.handle, ErrorHandler.handle,
              WarningHandler.handle, UnknownHandler.handle, HandlerClass.kind,
              HandlerKind.claims] at h hcl <;>
            simp only [hcl, if_true] at h
          · cases h; exact ⟨rfl, rfl, rfl⟩
          · split at h <;> cases h <;> exact ⟨rfl, rfl, rfl⟩
          · cases h; exact ⟨rfl, rfl, rfl⟩
          · cases h; exact ⟨rfl, rfl, rfl⟩
        exact ⟨hres.1, hres.2.1, [(self, m)], hres.2.2, by simp⟩
      · have hcl2 : cls.kind.claims m.type = false := by simpa using hcl
        cases next with
        | none =>
          have hres : o.1.heap = σ.heap ∧ o.1.openable = σ.openable ∧
              o.1.calls = σ.calls ++ [(self, m)] := by
            cases cls <;>
              simp only [handle, hobj, FatalErrorHandler.handle, ErrorHandler.handle,
                WarningHandler.handle, UnknownHandler.handle, LogHandler.handle,
                HandlerClass.kind, HandlerKind.claims] at h hcl2 <;>
              simp only [hcl2, Bool.false_eq_true, if_false] at h <;>
              cases h <;> exact ⟨rfl, rfl, rfl⟩
          exact ⟨hres.1, hres.2.1, [(self, m)], hres.2.2, by simp⟩
        | some nx =>
          rw [handle_forwards fuel self m σ ⟨cls, some nx⟩ nx hobj rfl hcl2] at h
          obtain ⟨h1, h2, L, h3, h4⟩ := ih nx _ o h
          refine ⟨h1, h2, (self, m) :: L, ?_, ?_⟩
          · rw [h3]
            simp
          · intro c hc
            rcases List.mem_cons.mp hc with rfl | hc
            · rfl
            · exact h4 c hc

/-- C15: for every heap of handlers, every receiver and every message, when `handle`
returns (normally or by raising) the heap is what it was before the call, so every
successor link and the file path of every `ErrorHandler` are unchanged; every handler
entered during the dispatch was entered with the message exactly as submitted; and the
accessors `type()` and `message()` return the constructor arguments. -/
theorem dispatch_read_only (fuel self : Nat) (m : LogMessage) (σ : State) (o : Outcome)
    (h : handle fuel self m σ = some o) :
    o.1.heap = σ.heap ∧
    (∀ c ∈ o.1.calls.drop σ.calls.length, c.2 = m) ∧
    (∀ (ty : LogMessageType) (t : String),
      (LogMessage.mk ty t).type = ty ∧ (LogMessage.mk ty t).message = t) := by
  obtain ⟨h1, _, L, h3, h4⟩ := handle_frame m fuel self σ o h
  refine ⟨h1, ?_, fun _ _ => ⟨rfl, rfl⟩⟩
  rw [h3, List.drop_left]
  exact h4

theorem dispatch_read_only_witness :
    handle 4 0 fatalErrorMessage (assemble "errors.log" initState).2 =
      some (refDispatch (driverChainAt 0 "errors.log") fatalErrorMessage
        (assemble "errors.log" initState).2) ∧
    (refDispatch (driverChainAt 0 "errors.log") fatalErrorMessage
        (assemble "errors.log" initState).2).1.heap = (assemble "errors.log" initState).2.heap :=
  ⟨rfl, (dispatch_read_only 4 0 fatalErrorMessage (assemble "errors.log" initState).2
    (refDispatch (driverChainAt 0 "errors.log") fatalErrorMessage
      (assemble "errors.log" initState).2) rfl).1⟩

/-! ### Failure descriptions -/

theorem string_append_left_cancel (p t u : String) (h : p ++ t = p ++ u) : t = u := by
  have hd := congrArg String.data h
  simp only [String.data_append] at hd
  exact String.ext (List.append_cancel_left hd)

/-- C16 (as stated, refuted): the two FatalError messages whose texts are a, NUL, b and
a, NUL, c are raised with the same description "Fatal Error: a" although the texts
differ, so the description does not determine the original text. -/
theorem failure_description_counterexample :
    (FatalErrorHandler.handle (fun _ _ _ => none) none ⟨.FatalError, "a\x00b"⟩
        initState).map Prod.snd = some (.error "Fatal Error: a") ∧
    (FatalErrorHandler.handle (fun _ _ _ => none) none ⟨.FatalError, "a\x00c"⟩
        initState).map Prod.snd = some (.error "Fatal Error: a") ∧
    "a\x00b" ≠ "a\x00c" :=
  ⟨rfl, rfl, by decide⟩

/-- C16 (amended): the three failures raised by the code (by `FatalErrorHandler::handle`,
by `UnknownHandler::handle` and by `LogHandler::handle` at the end of the chain) carry the
descriptions "Fatal Error: ", "Unknown log message: " and "Unhandled log message: "
followed by the text cut at its first NUL character; for all texts these descriptions are
pairwise different; within one kind the description determines the text up to its first
NUL character, and therefore the whole text when the texts hold no NUL character. -/
theorem failure_descriptions_distinguishable (t1 t2 t3 : String) (ty : LogMessageType)
    (σ : State) (dispatch : Nat → LogMessage → State → Option Outcome) (nx : Option Nat) :
    FatalErrorHandler.handle dispatch nx ⟨.FatalError, t1⟩ σ =
      some (σ, .error ("Fatal Error: " ++ what t1)) ∧
    UnknownHandler.handle dispatch nx ⟨.Unknown, t2⟩ σ =
      some (σ, .error ("Unknown log message: " ++ what t2)) ∧
    LogHandler.handle dispatch none ⟨ty, t3⟩ σ =
      some (σ, .error ("Unhandled log message: " ++ what t3)) ∧
    "Fatal Error: " ++ what t1 ≠ "Unknown log message: " ++ what t2 ∧
    "Fatal Error: " ++ what t1 ≠ "Unhandled log message: " ++ what t3 ∧
    "Unknown log message: " ++ what t2 ≠ "Unhandled log message: " ++ what t3 ∧
    (∀ u, "Fatal Error: " ++ what t1 = "Fatal Error: " ++ what u → what t1 = what u) ∧
    (∀ u, "Unknown log message: " ++ what t2 = "Unknown log message: " ++ what u →
      what t2 = what u) ∧
    (∀ u, "Unhandled log message: " ++ what t3 = "Unhandled log message: " ++ what u →
      what t3 = what u) ∧
    (∀ t u, NulFree t → NulFree u → what t = what u → t = u) := by
  refine ⟨?_, ?_, ?_, ?_, ?_, ?_, ?_, ?_, ?_, ?_⟩
  · rw [← what_fatal]
    rfl
  · rw [← what_unknown]
    rfl
  · rw [← what_unhandled]
    rfl
  · intro h
    have := congrArg String.data h
    simp at this
  · intro h
    have := congrArg String.data h
    simp at this
  · intro h
    have := congrArg String.data h
    simp at this
  · exact fun u h => string_append_left_cancel _ _ _ h
  · exact fun u h => string_append_left_cancel _ _ _ h
  · exact fun u h => string_append_left_cancel _ _ _ h
  · intro t u ht hu h
    rw [what_of_nulFree t ht, what_of_nulFree u hu] at h
    exact h

theorem failure_descriptions_distinguishable_witness :
    "Fatal Error: " ++ what "x" = "Fatal Error: " ++ what "x" ∧ what "x" = what "x" ∧
    NulFree "x" ∧ ("x" : String) = "x" :=
  ⟨rfl,
    (failure_descriptions_distinguishable "x" "x" "x" .Warning initState
      (fun _ _ _ => none) none).2.2.2.2.2.2.1 "x" rfl,
    by decide,
    (failure_descriptions_distinguishable "x" "x" "x" .Warning initState
      (fun _ _ _ => none) none).2.2.2.2.2.2.2.2.2 "x" "x" (by decide) (by decide) rfl⟩

end ChainResponsibility
